import Mathlib

/-!
Verification of the orchestration-hub core (`codex_hub_core.py`,
`local_exec.py`, `github_sync.py`, `app_server_client.py`) against its
natural-language specification.  The Python sources are shallowly embedded:
pure helpers become Lean functions over `List Char` / `String`, the mutable
`Hub` object becomes a state record with explicit state-passing, and the
side effects observable by the spec (JSON-RPC calls to the app-server,
GitHub CLI calls, broadcast events) are recorded in append-only logs inside
the state.  External effects (the subprocess runner used by `run_exec`,
the `gh` comment-id allocator) are passed in as explicit oracles, so that a
theorem quantifying over the oracle expresses that the code does not invoke
the effect.  The embedding models `str.lower` on its ASCII range (the spec
and source only distinguish `[a-z0-9]` from everything else) and models
JSON numbers as integers (no claim involves floating-point JSON values).
-/

set_option maxRecDepth 100000

/-! ## Basic character and string helpers (Python semantics) -/

/-- ASCII model of Python `str.lower` applied to one character. -/
def pyLowerChar (c : Char) : Char :=
  if 65 ≤ c.toNat ∧ c.toNat ≤ 90 then Char.ofNat (c.toNat + 32) else c

/-- Character class `[a-z0-9]` of the source's regexes. -/
def isLowerDigit (c : Char) : Bool :=
  (97 ≤ c.toNat && c.toNat ≤ 122) || (48 ≤ c.toNat && c.toNat ≤ 57)

/-- Python whitespace for `str.strip()` (ASCII range: space, tab, newline,
carriage return, vertical tab, form feed). -/
def isPyWs (c : Char) : Bool :=
  c = ' ' || c = '\t' || c = '\n' || c = '\r' || c.toNat = 11 || c.toNat = 12

/-- Drop the leading characters satisfying `p`. -/
def dropLeadingP (p : Char → Bool) : List Char → List Char
  | [] => []
  | c :: rest => if p c then dropLeadingP p rest else c :: rest

/-- Drop the trailing characters satisfying `p`. -/
def dropTrailingP (p : Char → Bool) : List Char → List Char
  | [] => []
  | c :: rest =>
    let r := dropTrailingP p rest
    if r.isEmpty && p c then [] else c :: r

/-- Python `str.strip(ch)` on a character list. -/
def pyStripChar (t : Char) (l : List Char) : List Char :=
  dropTrailingP (fun c => c = t) (dropLeadingP (fun c => c = t) l)

/-- Python `str.strip()` (no argument) on a character list. -/
def pyStripList (l : List Char) : List Char :=
  dropTrailingP isPyWs (dropLeadingP isPyWs l)

/-- Python `str.strip()` on a string. -/
def pyStrip (s : String) : String := String.mk (pyStripList s.data)

/-- Python `str.rstrip()` on a string. -/
def pyRstrip (s : String) : String := String.mk (dropTrailingP isPyWs s.data)

/-- Python `str.lower()` on a string (ASCII model). -/
def pyLower (s : String) : String := String.mk (s.data.map pyLowerChar)

mutual

/-- Replace each maximal run of characters not satisfying `keep` by the single
character `repl`: the effect of `re.sub(r"[^…]+", repl, s)` for the class
`keep`.  `replaceRuns` is the state outside a run. -/
def replaceRuns (keep : Char → Bool) (repl : Char) : List Char → List Char
  | [] => []
  | c :: rest =>
    if keep c then c :: replaceRuns keep repl rest
    else repl :: skipRun keep repl rest

/-- State inside a run of non-`keep` characters (the replacement character has
already been emitted). -/
def skipRun (keep : Char → Bool) (repl : Char) : List Char → List Char
  | [] => []
  | c :: rest =>
    if keep c then c :: replaceRuns keep repl rest
    else skipRun keep repl rest

end

/-! ## `normalise_agent_name` (codex_hub_core.py lines 125-127)

`re.sub(r"[^a-z0-9]+", "_", (name or "").lower()).strip("_")`, and `"agent"`
when the result is empty. -/

def normalise_agent_name (name : Option String) : String :=
  let lowered := (name.getD "").data.map pyLowerChar
  let token := pyStripChar '_' (replaceRuns isLowerDigit '_' lowered)
  if token.isEmpty then "agent" else String.mk token


/-! ## JSON values

Model of the Python `json` module as used by the sources.  Objects keep
insertion order with unique keys (duplicate keys overwrite in place, as for a
Python dict built by the parser).  Numbers are modelled as integers: no value
handled by any claim is a float, and the model parser rejects fractional or
exponent syntax rather than misreading it. -/

inductive Json where
  | jnull : Json
  | jbool : Bool → Json
  | jnum : Int → Json
  | jstr : String → Json
  | jarr : List Json → Json
  | jobj : List (String × Json) → Json
deriving Repr

mutual

def Json.beq : Json → Json → Bool
  | .jnull, .jnull => true
  | .jbool a, .jbool b => a == b
  | .jnum a, .jnum b => a == b
  | .jstr a, .jstr b => a == b
  | .jarr xs, .jarr ys => Json.beqList xs ys
  | .jobj xs, .jobj ys => Json.beqPairs xs ys
  | _, _ => false

def Json.beqList : List Json → List Json → Bool
  | [], [] => true
  | x :: xs, y :: ys => Json.beq x y && Json.beqList xs ys
  | _, _ => false

def Json.beqPairs : List (String × Json) → List (String × Json) → Bool
  | [], [] => true
  | (k, v) :: xs, (k2, v2) :: ys => k == k2 && Json.beq v v2 && Json.beqPairs xs ys
  | _, _ => false

end

instance : BEq Json := ⟨Json.beq⟩

/-- Lexicographic string order on code points (Python `sorted` on `str`). -/
def strLeB (a b : String) : Bool :=
  go a.data b.data
where
  go : List Char → List Char → Bool
    | [], _ => true
    | _ :: _, [] => false
    | c :: cs, d :: ds => if c = d then go cs ds else decide (c < d)

/-- Insertion sort of object entries by key (stable; keys are unique). -/
def insertByKey (p : String × Json) : List (String × Json) → List (String × Json)
  | [] => [p]
  | q :: rest => if strLeB p.1 q.1 then p :: q :: rest else q :: insertByKey p rest

def sortPairsByKey (l : List (String × Json)) : List (String × Json) :=
  l.foldr insertByKey []

mutual

/-- Canonical form of a value: object keys sorted recursively.  Two parsed
values have the same `json.dumps(…, sort_keys=True)` signature iff their
canonical forms are equal. -/
def Json.canon : Json → Json
  | .jnull => .jnull
  | .jbool b => .jbool b
  | .jnum n => .jnum n
  | .jstr s => .jstr s
  | .jarr xs => .jarr (Json.canonList xs)
  | .jobj kvs => .jobj (sortPairsByKey (Json.canonPairs kvs))

def Json.canonList : List Json → List Json
  | [] => []
  | x :: xs => Json.canon x :: Json.canonList xs

def Json.canonPairs : List (String × Json) → List (String × Json)
  | [] => []
  | (k, v) :: xs => (k, Json.canon v) :: Json.canonPairs xs

end

/-- Python truthiness of a JSON value (`bool(x)` for the decoded value). -/
def Json.truthy : Json → Bool
  | .jnull => false
  | .jbool b => b
  | .jnum n => n != 0
  | .jstr s => !s.isEmpty
  | .jarr xs => !xs.isEmpty
  | .jobj kvs => !kvs.isEmpty

/-- Dict lookup `d.get(k)` (keys are unique by construction). -/
def Json.getKey? : Json → String → Option Json
  | .jobj kvs, k => kvs.lookup k
  | _, _ => none

/-- Dict key membership `k in d`. -/
def Json.hasKey (j : Json) (k : String) : Bool :=
  (j.getKey? k).isSome

def Json.isObj : Json → Bool
  | .jobj _ => true
  | _ => false

/-- `d.get(k)` when a string is expected; non-strings give `none`. -/
def Json.getStr? (j : Json) (k : String) : Option String :=
  match j.getKey? k with
  | some (.jstr s) => some s
  | _ => none

/-- `d.get(k) or ""` for a string field. -/
def Json.getStrD (j : Json) (k : String) : String :=
  match j.getStr? k with
  | some s => s
  | none => ""

/-- `d.get(k) or {}`: the stored value when truthy, else the empty dict. -/
def Json.getObjD (j : Json) (k : String) : Json :=
  match j.getKey? k with
  | some v => if v.truthy then v else .jobj []
  | none => .jobj []

/-- First key of a dict: `next(iter(block), "control")`. -/
def Json.firstKeyD (j : Json) (d : String) : String :=
  match j with
  | .jobj ((k, _) :: _) => k
  | _ => d

/-! ## JSON parsing (`json.loads`) -/

/-- JSON whitespace skipped by the decoder. -/
def isJsonWs (c : Char) : Bool :=
  c = ' ' || c = '\t' || c = '\n' || c = '\r'

def skipJsonWs : List Char → List Char
  | [] => []
  | c :: rest => if isJsonWs c then skipJsonWs rest else c :: rest

def hexVal? (c : Char) : Option Nat :=
  if '0' ≤ c ∧ c ≤ '9' then some (c.toNat - 48)
  else if 'a' ≤ c ∧ c ≤ 'f' then some (c.toNat - 87)
  else if 'A' ≤ c ∧ c ≤ 'F' then some (c.toNat - 55)
  else none

/-- Body of a JSON string literal after the opening quote; returns the decoded
string and the input past the closing quote. -/
def parseJStrAux : List Char → List Char → Option (String × List Char)
  | _, [] => none
  | acc, '"' :: rest => some (String.mk acc.reverse, rest)
  | acc, '\\' :: '"' :: rest => parseJStrAux ('"' :: acc) rest
  | acc, '\\' :: '\\' :: rest => parseJStrAux ('\\' :: acc) rest
  | acc, '\\' :: '/' :: rest => parseJStrAux ('/' :: acc) rest
  | acc, '\\' :: 'b' :: rest => parseJStrAux (Char.ofNat 8 :: acc) rest
  | acc, '\\' :: 'f' :: rest => parseJStrAux (Char.ofNat 12 :: acc) rest
  | acc, '\\' :: 'n' :: rest => parseJStrAux ('\n' :: acc) rest
  | acc, '\\' :: 'r' :: rest => parseJStrAux ('\r' :: acc) rest
  | acc, '\\' :: 't' :: rest => parseJStrAux ('\t' :: acc) rest
  | acc, '\\' :: 'u' :: h1 :: h2 :: h3 :: h4 :: rest =>
    match hexVal? h1, hexVal? h2, hexVal? h3, hexVal? h4 with
    | some a, some b, some c, some d =>
      parseJStrAux (Char.ofNat (((a * 16 + b) * 16 + c) * 16 + d) :: acc) rest
    | _, _, _, _ => none
  | _, '\\' :: _ => none
  | acc, c :: rest =>
    if c.toNat < 32 then none else parseJStrAux (c :: acc) rest

def digitsToInt (l : List Char) : Int :=
  l.foldl (fun acc c => acc * 10 + Int.ofNat (c.toNat - 48)) 0

/-- Integer JSON number.  Fractions and exponents are rejected by the model
(the sources never feed such values into the paths under proof). -/
def parseJNum : List Char → Option (Json × List Char)
  | cs =>
    let (neg, cs2) := match cs with
      | '-' :: rest => (true, rest)
      | _ => (false, cs)
    let ds := cs2.takeWhile Char.isDigit
    let rest := cs2.dropWhile Char.isDigit
    if ds.isEmpty then none
    else match rest with
      | '.' :: _ => none
      | 'e' :: _ => none
      | 'E' :: _ => none
      | _ => some (.jnum (if neg then -(digitsToInt ds) else digitsToInt ds), rest)

/-- Dict insertion: value of an existing key is overwritten in place, a new key
is appended (Python dict semantics). -/
def insertPair : List (String × Json) → String → Json → List (String × Json)
  | [], k, v => [(k, v)]
  | (k2, v2) :: rest, k, v =>
    if k2 = k then (k2, v) :: rest else (k2, v2) :: insertPair rest k v

mutual

def parseJVal : Nat → List Char → Option (Json × List Char)
  | 0, _ => none
  | fuel + 1, cs =>
    match skipJsonWs cs with
    | '{' :: rest =>
      (match skipJsonWs rest with
       | '}' :: rest2 => some (.jobj [], rest2)
       | rest2 => parseJMembers fuel rest2 [])
    | '[' :: rest =>
      (match skipJsonWs rest with
       | ']' :: rest2 => some (.jarr [], rest2)
       | rest2 => parseJElems fuel rest2 [])
    | '"' :: rest =>
      (match parseJStrAux [] rest with
       | some (s, rest2) => some (.jstr s, rest2)
       | none => none)
    | 't' :: 'r' :: 'u' :: 'e' :: rest => some (.jbool true, rest)
    | 'f' :: 'a' :: 'l' :: 's' :: 'e' :: rest => some (.jbool false, rest)
    | 'n' :: 'u' :: 'l' :: 'l' :: rest => some (.jnull, rest)
    | cs2 => parseJNum cs2

def parseJMembers : Nat → List Char → List (String × Json) →
    Option (Json × List Char)
  | 0, _, _ => none
  | fuel + 1, cs, acc =>
    match cs with
    | '"' :: rest =>
      (match parseJStrAux [] rest with
       | some (k, rest2) =>
         (match skipJsonWs rest2 with
          | ':' :: rest3 =>
            (match parseJVal fuel rest3 with
             | some (v, rest4) =>
               let acc2 := insertPair acc k v
               (match skipJsonWs rest4 with
                | ',' :: rest5 => parseJMembers fuel (skipJsonWs rest5) acc2
                | '}' :: rest5 => some (.jobj acc2, rest5)
                | _ => none)
             | none => none)
          | _ => none)
       | none => none)
    | _ => none

def parseJElems : Nat → List Char → List Json → Option (Json × List Char)
  | 0, _, _ => none
  | fuel + 1, cs, acc =>
    match parseJVal fuel cs with
    | some (v, rest) =>
      (match skipJsonWs rest with
       | ',' :: rest2 => parseJElems fuel rest2 (acc ++ [v])
       | ']' :: rest2 => some (.jarr (acc ++ [v]), rest2)
       | _ => none)
    | none => none

end

/-- `json.loads` on a candidate string: parse one value and require only
whitespace after it. -/
def json_loads (s : String) : Option Json :=
  match parseJVal (s.data.length + 1) s.data with
  | some (v, rest) => if (skipJsonWs rest).isEmpty then some v else none
  | none => none

/-! ## JSON serialisation (`json.dumps`) -/

/-- JSON string escaping with `ensure_ascii=False`: escape the quote, the
backslash and control characters, keep everything else. -/
def dumpJChar (c : Char) : List Char :=
  if c = '"' then ['\\', '"']
  else if c = '\\' then ['\\', '\\']
  else if c = '\n' then ['\\', 'n']
  else if c = '\r' then ['\\', 'r']
  else if c = '\t' then ['\\', 't']
  else if c.toNat < 32 then
    let hx := fun (n : Nat) => if n < 10 then Char.ofNat (48 + n) else Char.ofNat (87 + n - 10)
    ['\\', 'u', '0', '0', hx (c.toNat / 16), hx (c.toNat % 16)]
  else [c]

def dumpJStr (s : String) : String :=
  String.mk ('"' :: (s.data.foldr (fun c acc => dumpJChar c ++ acc) ['"']))

mutual

/-- `json.dumps` with the given item and key separators (`", "`/`": "` by
default, `","`/`":"` for the compact form).  Key order is the stored order;
`canon` is applied first when `sort_keys=True` is wanted. -/
def Json.dump (sepItem sepKv : String) : Json → String
  | .jnull => "null"
  | .jbool true => "true"
  | .jbool false => "false"
  | .jnum n => toString n
  | .jstr s => dumpJStr s
  | .jarr xs => "[" ++ Json.dumpList sepItem sepKv xs ++ "]"
  | .jobj kvs => "\x7b" ++ Json.dumpPairs sepItem sepKv kvs ++ "\x7d"

def Json.dumpList (sepItem sepKv : String) : List Json → String
  | [] => ""
  | [x] => Json.dump sepItem sepKv x
  | x :: xs => Json.dump sepItem sepKv x ++ sepItem ++ Json.dumpList sepItem sepKv xs

def Json.dumpPairs (sepItem sepKv : String) : List (String × Json) → String
  | [] => ""
  | [(k, v)] => dumpJStr k ++ sepKv ++ Json.dump sepItem sepKv v
  | (k, v) :: xs =>
    dumpJStr k ++ sepKv ++ Json.dump sepItem sepKv v ++ sepItem ++
      Json.dumpPairs sepItem sepKv xs

end

/-- `json.dumps(obj, ensure_ascii=False)` with default separators. -/
def json_dumps (j : Json) : String := Json.dump ", " ": " j

/-! ## CONTROL_BLOCK_RE (codex_hub_core.py lines 57-59)

The source compiles, from a Python *raw* string, the pattern

  ```(?:json\\s+)?control\\s*\n(.*?)\n```       (DOTALL, IGNORECASE)

Because the string is raw, `\\s` reaches the regex engine as an escaped
backslash followed by a literal letter `s`: after `control` the pattern
demands one literal backslash character and then zero or more letters `s`
(`\s` the whitespace class is never formed).  The matcher below implements
exactly that compiled pattern: literal backticks, the optional group
`json` + backslash + `s`+, `control` + backslash + `s`*, a newline, a lazy
body, and the closing newline + three backticks.  IGNORECASE makes the
letters case-insensitive. -/

/-- Case-insensitive literal match of `pat` (given lowercase) at the head of
the input; returns the rest on success. -/
def matchCI : List Char → List Char → Option (List Char)
  | [], cs => some cs
  | _ :: _, [] => none
  | p :: ps, c :: cs => if pyLowerChar c = p then matchCI ps cs else none

/-- Count and drop a leading run of the letter `s` (case-insensitive). -/
def dropSRun : List Char → Nat × List Char
  | [] => (0, [])
  | c :: rest =>
    if pyLowerChar c = 's' then
      let (n, r) := dropSRun rest
      (n + 1, r)
    else (0, c :: rest)

/-- Lazy body: the shortest prefix followed by `"\n```"`; returns the captured
body and the input past the closing fence. -/
def findFenceClose : List Char → List Char → Option (List Char × List Char)
  | acc, '\n' :: '`' :: '`' :: '`' :: rest => some (acc.reverse, rest)
  | acc, c :: rest => findFenceClose (c :: acc) rest
  | _, [] => none

/-- Optional group `(?:json\\s+)?` of the compiled pattern: `json`, one literal
backslash, one or more letters `s`.  If the group cannot complete, the regex
falls back to matching without it (and since `json…` never starts with `c`,
that fallback fails at `control`; returning the unconsumed input is
equivalent). -/
def matchJsonGroup (cs : List Char) : List Char :=
  match matchCI ['j', 's', 'o', 'n'] cs with
  | some ('\\' :: cs2) =>
    let (n, cs3) := dropSRun cs2
    if n = 0 then cs else cs3
  | _ => cs

/-- Attempt to match the compiled CONTROL_BLOCK_RE at the start of the input:
on success, the capture group and the input past the match. -/
def matchControlAt (cs : List Char) : Option (List Char × List Char) :=
  match matchCI ['`', '`', '`'] cs with
  | none => none
  | some cs1 =>
    let cs2 := matchJsonGroup cs1
    match matchCI ['c', 'o', 'n', 't', 'r', 'o', 'l'] cs2 with
    | none => none
    | some ('\\' :: cs3) =>
      let (_, cs4) := dropSRun cs3
      match cs4 with
      | '\n' :: cs5 => findFenceClose [] cs5
      | _ => none
    | some _ => none

/-- Left-to-right non-overlapping scan of `CONTROL_BLOCK_RE`: the text with
every match removed (`re.sub(…, "")`) paired with the list of capture groups
(`re.finditer`).  Fuel bounds the scan; each step consumes at least one
character, so `length + 1` is always enough. -/
def controlScan : Nat → List Char → List Char × List (List Char)
  | 0, cs => (cs, [])
  | _, [] => ([], [])
  | fuel + 1, c :: rest =>
    match matchControlAt (c :: rest) with
    | some (cap, rest2) =>
      let (txt, caps) := controlScan fuel rest2
      (txt, cap :: caps)
    | none =>
      let (txt, caps) := controlScan fuel rest
      (c :: txt, caps)

/-- Collapse every maximal run of newlines to a single newline: the effect of
`re.sub(r"\n{2,}", "\n", s)` (a single newline is already its own
replacement). -/
def collapseNl : Nat → List Char → List Char
  | 0, cs => cs
  | _, [] => []
  | fuel + 1, c :: rest =>
    if c = '\n' then
      '\n' :: collapseNl fuel (rest.dropWhile (fun d => d = '\n'))
    else c :: collapseNl fuel rest

/-! ## strip_control_blocks / extract_control_blocks
(codex_hub_core.py lines 72-77 and 88-122) -/

def strip_control_blocks (text : String) : String :=
  if text.data.isEmpty then ""
  else
    let cleaned := (controlScan (text.data.length + 1) text.data).1
    let collapsed := collapseNl (cleaned.length + 1) cleaned
    String.mk (pyStripList collapsed)

/-- Python `str.splitlines()` (boundaries modelled: `\n`, `\r\n`, `\r`; the
texts under proof use only `\n`). -/
def pySplitlinesAux : List Char → List Char → List String
  | acc, [] => if acc.isEmpty then [] else [String.mk acc.reverse]
  | acc, '\r' :: '\n' :: rest => String.mk acc.reverse :: pySplitlinesAux [] rest
  | acc, '\n' :: rest => String.mk acc.reverse :: pySplitlinesAux [] rest
  | acc, '\r' :: rest => String.mk acc.reverse :: pySplitlinesAux [] rest
  | acc, c :: rest => pySplitlinesAux (c :: acc) rest

def pySplitlines (s : String) : List String := pySplitlinesAux [] s.data

/-- Fenced-block pass of `extract_control_blocks`: JSON-decode each capture
(after `strip()`); keep decoded dicts. -/
def fencedBlocks (caps : List (List Char)) : List Json :=
  caps.foldl
    (fun blocks cap =>
      match json_loads (String.mk (pyStripList cap)) with
      | some j => if j.isObj then blocks ++ [j] else blocks
      | none => blocks)
    []

/-- Line-fallback pass: any full line that `strip()`s to a JSON object literal
containing a `spawn`/`send`/`close` key, deduplicated (against the fenced
blocks and earlier lines) by sorted-key signature. -/
def lineFallback (lines : List String) (start : List Json × List Json) :
    List Json × List Json :=
  lines.foldl
    (fun acc line =>
      let (blocks, seen) := acc
      let candidate := pyStripList line.data
      if candidate.head? = some '{' && candidate.getLast? = some '}' then
        match json_loads (String.mk candidate) with
        | some j =>
          if j.isObj then
            if j.hasKey "spawn" || j.hasKey "send" || j.hasKey "close" then
              let sig := j.canon
              if seen.contains sig then (blocks, seen)
              else (blocks ++ [j], seen ++ [sig])
            else (blocks, seen)
          else (blocks, seen)
        | none => (blocks, seen)
      else (blocks, seen))
    start

def extract_control_blocks (text : Option String) : List Json :=
  match text with
  | none => []
  | some t =>
    if t.data.isEmpty then []
    else
      let caps := (controlScan (t.data.length + 1) t.data).2
      let fenced := fencedBlocks caps
      let seen0 := fenced.map Json.canon
      (lineFallback (pySplitlines t) (fenced, seen0)).1

/-! ## local_exec.py -/

/-- Allow table: program basename to allowed subcommands. -/
def DEFAULT_ALLOWED : List (String × List String) :=
  [("git", ["status", "rev-parse", "checkout", "switch", "add", "commit", "push",
    "fetch", "pull", "merge", "worktree"]),
   ("gh", ["issue", "pr", "repo", "auth"])]

structure ExecResult where
  ok : Bool
  code : Int
  cmd : String
  cwd : String
  stdout : String
  stderr : String
deriving Repr, DecidableEq

/-- `os.path.basename`: the part after the last slash. -/
def basename (p : String) : String :=
  String.mk ((p.data.reverse.takeWhile (fun c => ¬ c = '/')).reverse)

/-- `local_exec._is_allowed`: empty argv is refused; the program's basename
must be in the allow table; with a second argument, it must be an allowed
subcommand or start with `-`. -/
def _is_allowed (argv : List String) (allow : List (String × List String)) : Bool :=
  match argv with
  | [] => false
  | prog :: rest =>
    match allow.lookup (basename prog) with
    | none => false
    | some subs =>
      match rest with
      | [] => true
      | sub :: _ => subs.contains sub || sub.startsWith "-"

/-- `" ".join(argv)`. -/
def joinSpace (l : List String) : String := String.intercalate " " l

/-- Stand-in for `os.getcwd()` (a fixed directory of the environment). -/
def os_getcwd : String := "/work"

/-- Outcome of `subprocess.run`, supplied as an oracle: `Except msg (code,
stdout, stderr)`, where `.error msg` models `FileNotFoundError` with message
`msg`. -/
def ExecRunner : Type := List String → String → List (String × String) →
  Except String (Int × String × String)

/-- `argv` field of an exec block: `list(spec.get("argv") or [])` (items are
strings on every path under proof; a non-string item is rendered as `""`). -/
def execArgv (payload : Json) : List String :=
  match payload.getKey? "argv" with
  | some v =>
    if v.truthy then
      match v with
      | .jarr xs => xs.map (fun j => match j with | .jstr s => s | _ => "")
      | _ => []
    else []
  | none => []

/-- `spec.get("cwd") or os.getcwd()`. -/
def execCwd (payload : Json) : String :=
  match payload.getKey? "cwd" with
  | some (.jstr s) => if s.isEmpty then os_getcwd else s
  | _ => os_getcwd

/-- `dict(spec.get("env") or {})`. -/
def execEnv (payload : Json) : List (String × String) :=
  match payload.getKey? "env" with
  | some (.jobj kvs) =>
    kvs.map (fun p => (p.1, match p.2 with | .jstr s => s | _ => ""))
  | _ => []

/-- `local_exec.run_exec`: deny (never invoking the runner) unless the argv
passes the allow-list, otherwise run the command via the runner oracle. -/
def run_exec (payload : Json) (allow : List (String × List String))
    (runner : ExecRunner) : ExecResult :=
  let argv := execArgv payload
  let cwd := execCwd payload
  let env := execEnv payload
  if ¬ _is_allowed argv allow then
    let cmd_text := joinSpace argv
    ⟨false, 126, cmd_text, cwd, "",
      "denied: " ++ (if cmd_text.isEmpty then "empty command" else cmd_text)⟩
  else
    match runner argv cwd env with
    | .error msg => ⟨false, 127, joinSpace argv, cwd, "", msg⟩
    | .ok (code, out, err) => ⟨code == 0, code, joinSpace argv, cwd, out, err⟩

/-! ## github_sync.py: blockers, SLAs, charters -/

structure IssueDetails where
  number : Int
  title : String
  state : String
  url : String
  labels : List String
  body : String
deriving Repr, DecidableEq

structure IssueCharter where
  goal : String
  acceptance : List String
  scope_notes : List String
  validation : String
deriving Repr, DecidableEq

/-- `_ISSUE_REF_RE.findall`: every `#(\d+)` reference, left to right. -/
def findIssueRefs : Nat → List Char → List Int
  | 0, _ => []
  | _, [] => []
  | fuel + 1, c :: rest =>
    if c = '#' then
      let ds := rest.takeWhile Char.isDigit
      if ds.isEmpty then findIssueRefs fuel rest
      else digitsToInt ds :: findIssueRefs fuel (rest.dropWhile Char.isDigit)
    else findIssueRefs fuel rest

def findIssueRefsStr (s : String) : List Int :=
  findIssueRefs (s.data.length + 1) s.data

/-- Sorted deduplicated list of positive issue numbers
(`sorted({n for n in blockers if n > 0})`). -/
def sortedUniquePos (l : List Int) : List Int :=
  (l.filter (fun n => 0 < n)).foldl
    (fun acc n => if acc.contains n then acc else insertSortedInt n acc) []
where
  insertSortedInt (n : Int) : List Int → List Int
    | [] => [n]
    | m :: rest => if n ≤ m then n :: m :: rest else m :: insertSortedInt n rest

/-- `github_sync.parse_blockers`: `blocked-by:` labels (case-insensitive, with
`#N` references) plus body lines starting with `blocked by:`/`blocked-by:`. -/
def parse_blockers (body : String) (labels : List String) : List Int :=
  let fromLabels := labels.foldl
    (fun acc lab =>
      let t := (pyStrip lab).data.map pyLowerChar
      let whole := pyStrip lab
      match matchCI "blocked-by:".data t with
      | some rest =>
        if rest.isEmpty then acc
        else acc ++ findIssueRefsStr (String.mk ((whole.data).drop 11))
      | none => acc)
    []
  let fromBody := (pySplitlines body).foldl
    (fun acc raw =>
      let text := pyStrip raw
      let low := text.data.map pyLowerChar
      if (matchCI "blocked by:".data low).isSome ||
          (matchCI "blocked-by:".data low).isSome then
        acc ++ findIssueRefsStr text
      else acc)
    []
  sortedUniquePos (fromLabels ++ fromBody)

/-- SLA values from labels `checkin:<n><smhd>` / `budget:<n><smhd>`
(`github_sync.sla_from_labels`; as in the source, a later label overwrites an
earlier one). -/
def sla_from_labels (labels : List String) : Option Int × Option Int :=
  labels.foldl
    (fun acc lab =>
      let t := (pyStrip lab).data.map pyLowerChar
      let parseTail := fun (rest : List Char) =>
        let ds := rest.takeWhile Char.isDigit
        let u := rest.dropWhile Char.isDigit
        match ds, u with
        | [], _ => none
        | _, [unit] =>
          let n := digitsToInt ds
          if unit = 's' then some n
          else if unit = 'm' then some (n * 60)
          else if unit = 'h' then some (n * 3600)
          else if unit = 'd' then some (n * 86400)
          else none
        | _, _ => none
      let acc := match matchCI "checkin:".data t with
        | some rest =>
          (match parseTail rest with
           | some v => (some v, acc.2)
           | none => acc)
        | none => acc
      match matchCI "budget:".data t with
      | some rest =>
        (match parseTail rest with
         | some v => (acc.1, some v)
         | none => acc)
      | none => acc)
    (none, none)

/-- `_normalise_heading`: lowercase, replace non-`[a-z0-9]` runs with `-`,
strip `-`. -/
def normaliseHeading (s : String) : String :=
  String.mk (pyStripChar '-' (replaceRuns isLowerDigit '-' (s.data.map pyLowerChar)))

/-- `_SECTION_RE ^#{1,6}\s+(.+?)\s*$` applied to one line: the heading text
when the line is a Markdown heading. -/
def sectionHeading? (line : String) : Option String :=
  let hashes := line.data.takeWhile (fun c => c = '#')
  let rest := line.data.drop hashes.length
  if hashes.length < 1 || 6 < hashes.length then none
  else match rest with
    | [] => none
    | c :: _ =>
      if isPyWs c then
        let content := pyStripList rest
        if content.isEmpty then none else some (String.mk content)
      else none

/-- Section accumulator for `parse_issue_body`: named sections in insertion
order, each with its (rstripped) lines. -/
def addSectionLine (sections : List (String × List String)) (name : String)
    (line : String) : List (String × List String) :=
  match sections with
  | [] => [(name, [line])]
  | (k, ls) :: rest =>
    if k = name then (k, ls ++ [line]) :: rest
    else (k, ls) :: addSectionLine rest name line

def ensureSection (sections : List (String × List String)) (name : String) :
    List (String × List String) :=
  if (sections.lookup name).isSome then sections else sections ++ [(name, [])]

/-- Split an issue body into `__preamble__` and heading-named sections
(`github_sync.parse_issue_body`, first loop). -/
def splitSections (body : String) : List (String × List String) :=
  ((pySplitlines body).foldl
    (fun acc line =>
      let (sections, current) := acc
      match sectionHeading? line with
      | some h =>
        let name := normaliseHeading h
        (ensureSection sections name, name)
      | none =>
        (addSectionLine (ensureSection sections current) current (pyRstrip line),
          current))
    ([("__preamble__", [])], "__preamble__")).1

/-- `_section`: first exact key hit, then first section whose name has a key
as prefix. -/
def sectionFor (sections : List (String × List String)) (keys : List String) :
    List String :=
  match keys.foldl
      (fun acc k => match acc with
        | some v => some v
        | none => sections.lookup k) none with
  | some v => v
  | none =>
    match sections.foldl
        (fun acc p => match acc with
          | some v => some v
          | none => if keys.any (fun k => p.1.startsWith k) then some p.2 else none)
        none with
    | some v => v
    | none => []

/-- `_clean_lines`. -/
def cleanLines (lines : List String) : List String :=
  (lines.map pyStrip).filter (fun l => ¬ l.isEmpty)

/-- `_CHECKBOX_RE ^[\-\*\+]\s*(?:\[[ xX*]\]\s*)?(.*)$` applied to a stripped
line: the checklist text. -/
def checkboxText (text : String) : String :=
  match text.data with
  | c :: rest =>
    if c = '-' || c = '*' || c = '+' then
      let rest2 := rest.dropWhile isPyWs
      let rest3 := match rest2 with
        | '[' :: m :: ']' :: tail =>
          if m = ' ' || m = 'x' || m = 'X' || m = '*' then tail.dropWhile isPyWs
          else rest2
        | _ => rest2
      String.mk rest3
    else text
  | [] => text

/-- `_parse_checklist`. -/
def parseChecklist (lines : List String) : List String :=
  lines.foldl
    (fun items raw =>
      let text := pyStrip raw
      if text.isEmpty then items
      else
        let candidate := pyStrip (checkboxText text)
        if candidate.isEmpty then items else items ++ [candidate])
    []

/-- Collapse whitespace runs to single spaces (`_WHITESPACE_RE.sub(" ", s)`). -/
def collapseWs (s : String) : String :=
  String.mk (replaceRuns (fun c => ¬ isPyWs c) ' ' s.data)

/-- `github_sync.parse_issue_body`. -/
def parse_issue_body (body : String) : IssueCharter :=
  let sections := splitSections body
  let goal_lines := cleanLines (sectionFor sections ["goal"])
  let acceptance_lines :=
    sectionFor sections ["acceptance-checklist", "acceptance", "acceptance-criteria"]
  let scope_first := sectionFor sections ["scope", "scope-notes"]
  let scope_lines :=
    if scope_first.isEmpty then sectionFor sections ["scope-notes", "scope-and-limits"]
    else scope_first
  let validation_lines :=
    cleanLines (sectionFor sections ["validation", "test-plan", "tests"])
  let scope_check := parseChecklist scope_lines
  { goal := String.intercalate " " goal_lines
    acceptance := parseChecklist acceptance_lines
    scope_notes := if scope_check.isEmpty then cleanLines scope_lines else scope_check
    validation := String.intercalate "\n" validation_lines }

/-- Sorted labels (`", ".join(sorted(issue.labels))`). -/
def sortStrings (l : List String) : List String :=
  l.foldr insertStr []
where
  insertStr (s : String) : List String → List String
    | [] => [s]
    | t :: rest => if strLeB s t then s :: t :: rest else t :: insertStr s rest

/-- `github_sync.format_issue_prompt`. -/
def format_issue_prompt (issue : IssueDetails) (charter : IssueCharter) : String :=
  let lines := ["Work on Issue #" ++ toString issue.number ++ ": " ++ issue.title]
  let lines := if ¬ charter.goal.isEmpty then
      lines ++ ["Goal: " ++ collapseWs (pyStrip charter.goal)]
    else lines
  let lines := if ¬ charter.acceptance.isEmpty then
      lines ++ ["Acceptance:"] ++
        ((List.range charter.acceptance.length).zip charter.acceptance).map
          (fun p => toString (p.1 + 1) ++ ". " ++ collapseWs (pyStrip p.2))
    else lines
  let lines := if ¬ charter.scope_notes.isEmpty then
      lines ++ ["Scope: " ++ String.intercalate "; " charter.scope_notes]
    else lines
  let lines := if ¬ (pyStrip charter.validation).isEmpty then
      lines ++ ["Validation: " ++ pyStrip charter.validation]
    else lines
  let lines := if ¬ issue.labels.isEmpty then
      lines ++ ["Labels: " ++ String.intercalate ", " (sortStrings issue.labels)]
    else lines
  String.intercalate "\n" lines

/-! ## app_server_client.py: the transport's pending-request state

`AppServerProcess` keeps `_pending : Dict[int, Future]` and a monotonic id
counter.  The embedding tracks the set of pending ids and the process flags;
`stop` (lines 65-80) closes stdin, waits up to one second, kills the process
and cancels the pump tasks — it never touches `_pending`, and nowhere in the
client is a pending future failed on shutdown (no `TransportClosed` error
type exists in the code; a still-pending `call` only ends via its own
`asyncio.wait_for` timeout). -/

structure AppServer where
  pending : List Nat
  next_id : Nat
  stdin_open : Bool
  alive : Bool
  pumps_running : Bool
deriving Repr, DecidableEq

/-- `AppServerProcess.call`, registration half: allocate the next id and
install a pending entry. -/
def AppServer.register_call (t : AppServer) : AppServer × Nat :=
  ({ t with pending := t.pending ++ [t.next_id], next_id := t.next_id + 1 },
    t.next_id)

/-- Stdout pump, response case: pop the pending entry for the responded id. -/
def AppServer.resolve_response (t : AppServer) (id : Nat) : AppServer :=
  { t with pending := t.pending.erase id }

/-- `call`'s `finally:` on timeout: drop the pending entry. -/
def AppServer.drop_pending (t : AppServer) (id : Nat) : AppServer :=
  { t with pending := t.pending.erase id }

/-- `AppServerProcess.stop` (lines 65-80): `write_eof` on stdin, wait up to
1 s for exit then `kill`, cancel the pump tasks.  `_pending` is not read or
written. -/
def AppServer.stop (t : AppServer) : AppServer :=
  { t with stdin_open := false, alive := false, pumps_running := false }

/-! ## codex_hub_core.py: the Hub state machine

The `Hub` object's mutable state, with the observable effects recorded in
append-only logs: `events` models the broadcast stream (`_broadcast` assigns
`seq` and appends to `.orch/state.jsonl`), `calls` the outbound app-server
RPC traffic (`create_conversation` / `send_message` / `respond` /
`respond_error`), and `gh` the GitHub CLI calls.  Conversation ids returned
by `newConversation` are modelled by a counter (`conv:<n>`); wall-clock reads
(`time.time()`) return the state's `now`.  Subscriber queues, the in-memory
event ring and per-agent stderr buffers are pure observability and are not
modelled; the digest debounce timer task is modelled by its effect
(`maybe_send_digest`). -/

structure Agent where
  name : String
  conversation_id : String
  state : String
  last_checkin_ts : Nat
  last_artifact_id : Option String
  last_summary : Option String
deriving Repr, DecidableEq

structure AgentMeta where
  issue_number : Option Int
  epic : Option Int
  started_at : Nat
  last_event_at : Nat
  checkin_seconds : Int
  budget_seconds : Int
  nudges_sent : Nat
  max_nudges : Nat
  status_comment_id : Option Int
  workspace : Option String
  closing_after_budget : Bool
deriving Repr, DecidableEq

inductive RpcOut where
  | newConversation (workspace : Option String) (model : Option String)
  | sendUserMessage (conv : String) (texts : List String)
  | respond (reqId : Nat) (decision : String)
  | respondError (reqId : Nat) (code : Int) (message : String)
deriving Repr, DecidableEq

inductive GhOut where
  | commentIssue (issue : Int) (body : String)
  | ensureStatusComment (issue : Int)
  | updateComment (commentId : Int) (body : String)
deriving Repr, DecidableEq

structure Event where
  seq : Nat
  who : String
  type : String
  payload : Json
deriving Repr

structure Hub where
  dangerous : Bool
  wip_limit : Nat
  default_cwd : Option String
  model : Option String
  default_checkin_seconds : Int
  default_budget_seconds : Int
  autopilot_enabled : Bool
  autopilot_warned : Bool
  decide_debounce_s : Nat
  orchestrator : Option Agent
  subs : List (String × Agent)
  conv_to_name : List (String × String)
  agent_state : List (String × String)
  agent_meta : List (String × AgentMeta)
  issue_to_agent : List (Int × String)
  last_checkin : List (String × Int)
  sequence : Nat
  events : List Event
  calls : List RpcOut
  gh : List GhOut
  orch_dirty : List String
  orch_extra_blocks : List Json
  orch_last_sent : Nat
  decision_log : List Json
  status_cache : List (Int × Int)
  artifact_store : List (String × String)
  next_artifact : Nat
  next_conv : Nat
  now : Nat
deriving Repr

/-- Dict assignment `m[k] = v`: overwrite in place or append. -/
def setA {κ α : Type} [DecidableEq κ] (m : List (κ × α)) (k : κ) (v : α) :
    List (κ × α) :=
  match m with
  | [] => [(k, v)]
  | (k2, v2) :: rest => if k2 = k then (k2, v) :: rest else (k2, v2) :: setA rest k v

/-- Dict lookup `m.get(k)`. -/
def getA {κ α : Type} [DecidableEq κ] (m : List (κ × α)) (k : κ) : Option α :=
  match m with
  | [] => none
  | (k2, v) :: rest => if k2 = k then some v else getA rest k

/-- Dict deletion `m.pop(k, None)`. -/
def delA {κ α : Type} [DecidableEq κ] (m : List (κ × α)) (k : κ) :
    List (κ × α) :=
  match m with
  | [] => []
  | (k2, v) :: rest => if k2 = k then rest else (k2, v) :: delA rest k

/-- `Hub._broadcast` (lines 791-810): assign the next sequence number and
append the event (the state file and in-memory ring mirror this log; the
subscriber fan-out carries the same events). -/
def Hub.broadcast (s : Hub) (who type_ : String) (payload : Json) : Hub :=
  { s with sequence := s.sequence + 1,
           events := s.events ++ [⟨s.sequence + 1, who, type_, payload⟩] }

/-- `Hub._send_orch`: `sendUserMessage` with one text item to the
orchestrator's conversation; nothing when there is no orchestrator. -/
def Hub.send_orch (s : Hub) (text : String) : Hub :=
  match s.orchestrator with
  | none => s
  | some orch =>
    { s with calls := s.calls ++ [RpcOut.sendUserMessage orch.conversation_id [text]] }

/-- `AppServerProcess.create_conversation` as invoked by the hub: a
`newConversation` RPC, then the initial messages via `sendUserMessage`; the
returned conversation id is drawn from the model's counter. -/
def Hub.create_conversation (s : Hub) (workspace : String)
    (initial : List String) : Hub × String :=
  let conv := "conv:" ++ toString s.next_conv
  ({ s with next_conv := s.next_conv + 1,
            calls := s.calls ++ [RpcOut.newConversation (some workspace) s.model,
              RpcOut.sendUserMessage conv initial] },
    conv)

/-- `Hub._mark_dirty` (lines 812-816). -/
def Hub.mark_dirty (s : Hub) (agent : String) : Hub :=
  if agent.isEmpty || agent = "orchestrator" then s
  else if s.orch_dirty.contains agent then s
  else { s with orch_dirty := s.orch_dirty ++ [agent] }

/-- One digest line and event for a dirty agent (`_build_digest_text` body of
the loop). -/
def digestEntry (s : Hub) (name : String) : List String × Json :=
  let agent := getA s.subs name
  let state := (getA s.agent_state name).getD "unknown"
  let summary := match agent with
    | some a => pyStrip ((a.last_summary).getD "")
    | none => ""
  let artifact_id : Option String := match agent with
    | some a => a.last_artifact_id
    | none => none
  let last_text := match agent with
    | some a => if a.last_checkin_ts ≠ 0 then toString (s.now - a.last_checkin_ts) ++ "s"
        else "n/a"
    | none => "n/a"
  let lines := ["- " ++ name ++ " [" ++ state ++ ", last check-in " ++ last_text ++ "]"]
  let lines := if ¬ summary.isEmpty then lines ++ ["  \"" ++ summary ++ "\""] else lines
  let ev0 : List (String × Json) :=
    [("type", .jstr "AGENT_UPDATE"), ("agent", .jstr name), ("state", .jstr state)]
  let ev1 := match getA s.agent_meta name with
    | some meta => match meta.issue_number with
      | some n => if n ≠ 0 then ev0 ++ [("issue", .jnum n)] else ev0
      | none => ev0
    | none => ev0
  let ev2 := match artifact_id with
    | some art => ev1 ++ [("artifacts", .jobj [("last_message", .jstr art)])]
    | none => ev1
  (lines, .jobj ev2)

/-- `Hub._build_digest_text` (lines 848-884): the digest text, and the state
with the extra-blocks queue cleared. -/
def Hub.build_digest_text (s : Hub) : String × Hub :=
  let dirty := sortStrings s.orch_dirty
  let acc := dirty.foldl
    (fun (acc : List String × List Json) name =>
      let (lines, ev) := digestEntry s name
      (acc.1 ++ lines, acc.2 ++ [ev]))
    (["Decision-ready digest:"], [])
  let extra := s.orch_extra_blocks
  let lines := if acc.1.length = 1 then
      acc.1 ++ ["- No agent updates; awaiting check-ins."]
    else acc.1
  let text := String.intercalate "\n" lines
  let text := (acc.2 ++ extra).foldl
    (fun t ev => t ++ "\n\n```event\n" ++ json_dumps ev ++ "\n```") text
  (text, { s with orch_extra_blocks := [] })

/-- `Hub._send_digest` (lines 887-905). -/
def Hub.send_digest (s : Hub) (reason : String) (force : Bool) : Hub :=
  match s.orchestrator with
  | none => s
  | some orch =>
    if ¬ force ∧ s.orch_dirty.isEmpty ∧ s.orch_extra_blocks.isEmpty then s
    else
      let text := (s.build_digest_text).1
      let s := (s.build_digest_text).2
      if (pyStrip text).isEmpty ∧ ¬ force then s
      else
        let text := if (pyStrip text).isEmpty then "Decision-ready digest: (no updates)"
          else text
        let s := { s with
          calls := s.calls ++ [RpcOut.sendUserMessage orch.conversation_id [text]],
          orch_last_sent := s.now }
        let record : Json := .jobj [("ts", .jnum s.now), ("who", .jstr "hub"),
          ("action", .jstr "digest_sent"), ("reason", .jstr reason)]
        let s := { s with decision_log := s.decision_log ++ [record] }
        let s := s.broadcast "hub" "decision" record
        { s with orch_dirty := [] }

/-- `Hub._maybe_send_digest` (lines 839-846). -/
def Hub.maybe_send_digest (s : Hub) (reason : String) : Hub :=
  match s.orchestrator with
  | none => s
  | some _ =>
    if s.orch_dirty.isEmpty ∧ s.orch_extra_blocks.isEmpty then s
    else if s.orch_last_sent = 0 ∨ s.decide_debounce_s ≤ s.now - s.orch_last_sent then
      s.send_digest reason false
    else s

/-- Orchestrator system preamble and the sub-agent template (abbreviated
stand-ins: the texts are opaque seed data for the conversations and no claim
inspects them). -/
def FALLBACK_SYSTEM_MSG : String := "### SYSTEM MESSAGE (treat as system role) ###\n"

def subagentSystem (name : String) : String :=
  "You are a SUB-AGENT named '" ++ name ++ "'."

/-- First truthy of an optional-string chain (`a or b or default`), with the
empty string falsy. -/
def firstTruthyStr (xs : List (Option String)) (dflt : String) : String :=
  match xs with
  | [] => dflt
  | some s :: rest => if s.isEmpty then firstTruthyStr rest dflt else s
  | none :: rest => firstTruthyStr rest dflt

/-- Python `str(x)` for an optional string (as interpolated into f-strings:
`None` renders as `"None"`). -/
def displayOpt (name : Option String) : String :=
  match name with
  | some s => s
  | none => "None"

/-- `Hub.spawn_sub` (lines 711-750). -/
def Hub.spawn_sub (s : Hub) (name : Option String) (task_text : String)
    (cwd : Option String) : Hub :=
  if name = none ∨ name = some "" then
    s.send_orch "HUB: spawn missing 'name'."
  else
    let key := normalise_agent_name name
    match getA s.subs key with
    | some agent =>
      let s := { s with
        calls := s.calls ++ [RpcOut.sendUserMessage agent.conversation_id [task_text]] }
      s.send_orch ("HUB: sub-agent '" ++ key ++ "' already exists; forwarded new task.")
    | none =>
      let sys_message := subagentSystem key
      let initial := [FALLBACK_SYSTEM_MSG ++ sys_message, task_text]
      let workspace := firstTruthyStr [cwd, s.default_cwd] os_getcwd
      let sc := s.create_conversation workspace initial
      let s := sc.1
      let conv_id := sc.2
      let agent : Agent := ⟨key, conv_id, "idle", 0, none, none⟩
      let s := { s with
        subs := setA s.subs key agent,
        conv_to_name := setA s.conv_to_name conv_id key,
        agent_state := setA s.agent_state key "idle",
        agent_meta := setA s.agent_meta key
          ⟨none, none, s.now, s.now, s.default_checkin_seconds,
            s.default_budget_seconds, 0, 2, none, some workspace, false⟩ }
      let s := s.broadcast key "agent_added" (.jobj [("agent", .jstr key)])
      let s := s.broadcast key "agent_state"
        (.jobj [("agent", .jstr key), ("state", .jstr "idle")])
      let s := s.send_orch ("HUB: spawned sub-agent '" ++ key ++ "'.")
      let s := { s with last_checkin := setA s.last_checkin key (-1) }
      let s := s.mark_dirty key
      s.maybe_send_digest "spawn"

/-- `Hub.send_to_sub` (lines 752-762). -/
def Hub.send_to_sub (s : Hub) (name : Option String) (task_text : String) : Hub :=
  let key := normalise_agent_name name
  match getA s.subs key with
  | none => s.send_orch ("HUB: no such sub-agent '" ++ displayOpt name ++ "'.")
  | some agent =>
    let s := { s with
      calls := s.calls ++ [RpcOut.sendUserMessage agent.conversation_id [task_text]] }
    let s := match getA s.agent_meta key with
      | some meta =>
        { s with agent_meta := setA s.agent_meta key { meta with last_event_at := s.now } }
      | none => s
    s.send_orch ("HUB: forwarded instruction to '" ++ key ++ "'.")

/-- `Hub.close_sub` (lines 764-779). -/
def Hub.close_sub (s : Hub) (name : Option String) : Hub :=
  let key := normalise_agent_name name
  match getA s.subs key with
  | none => s.send_orch ("HUB: no such sub-agent '" ++ displayOpt name ++ "'.")
  | some agent =>
    let s := { s with
      subs := delA s.subs key,
      agent_state := delA s.agent_state key,
      conv_to_name := delA s.conv_to_name agent.conversation_id,
      agent_meta := delA s.agent_meta key,
      last_checkin := delA s.last_checkin key,
      issue_to_agent := s.issue_to_agent.filter (fun p => ¬ p.2 = key) }
    let s := s.broadcast key "agent_removed" (.jobj [("agent", .jstr key)])
    s.send_orch ("HUB: closed sub-agent '" ++ key ++ "'.")

/-- `artifacts.load_text` over the modelled store: `(body[:max_chars],
total)` when present. -/
def loadArtifact (s : Hub) (art_id : String) (max_chars : Int) :
    Option (String × Nat) :=
  match getA s.artifact_store art_id with
  | none => none
  | some body =>
    let total := body.data.length
    if (max_chars : Int) < (total : Int) then
      let keep := if max_chars ≤ 0 then (0 : Nat) else max_chars.toNat
      some (String.mk (body.data.take keep), total)
    else some (body, total)

/-- Optional-string representation of a JSON value for f-string interpolation
(`issue` in `f"issue#{issue}"`). -/
def jsonToPyStr : Json → String
  | .jnull => "None"
  | .jbool true => "True"
  | .jbool false => "False"
  | .jnum n => toString n
  | .jstr s => s
  | .jarr _ => "[…]"
  | .jobj _ => "\x7b…\x7d"

/-- `int(x)` on a decoded JSON value (`None` on failure: the caller's
`except` swallows it). -/
def jsonToInt? : Json → Option Int
  | .jnum n => some n
  | .jstr s =>
    let t := pyStripList s.data
    (match t with
     | '-' :: ds => if ¬ ds.isEmpty ∧ ds.all Char.isDigit then some (-(digitsToInt ds)) else none
     | ds => if ¬ ds.isEmpty ∧ ds.all Char.isDigit then some (digitsToInt ds) else none)
  | .jbool b => some (if b then 1 else 0)
  | _ => none

/-- `Hub._handle_control_block` (lines 526-642).  `runner` is the
`subprocess.run` oracle used by the `exec` branch. -/
def Hub.handle_control_block (runner : ExecRunner) (s : Hub) (block : Json) : Hub :=
  if ¬ s.autopilot_enabled then
    let summary := block.firstKeyD "control"
    let s := s.broadcast "orchestrator" "autopilot_suppressed"
      (.jobj [("summary", .jstr summary), ("control", block)])
    if ¬ s.autopilot_warned then
      let s := s.send_orch
        "HUB: autopilot is currently disabled; ignoring control blocks. Use :autopilot on to allow automated actions."
      { s with autopilot_warned := true }
    else s
  else if block.hasKey "exec" then
    if ¬ s.dangerous then
      s.send_orch "HUB: exec control block ignored because dangerous mode is off."
    else
      let spec := block.getObjD "exec"
      let result := run_exec spec DEFAULT_ALLOWED runner
      let body := "exec> " ++ result.cmd ++ "\ncwd: " ++ result.cwd ++ "\ncode: " ++
        toString result.code ++ "\n\nstdout:\n" ++ result.stdout ++ "\n\nstderr:\n" ++
        result.stderr
      let s := s.broadcast "orchestrator" "orch_to_user" (.jobj [("text", .jstr body)])
      if ¬ result.ok then
        s.send_orch ("HUB: exec command failed with exit code " ++
          toString result.code ++ ".")
      else s
  else if block.hasKey "status" then
    let spec := block.getObjD "status"
    let issue := spec.getKey? "issue"
    let text_body := pyStrip (spec.getStrD "text")
    let scope := match issue with
      | some v => if v.truthy then "issue#" ++ jsonToPyStr v else "project"
      | none => "project"
    let s := s.broadcast "hub" "status_posted"
      (.jobj [("scope", .jstr scope), ("text", .jstr text_body)])
    match issue with
    | some v =>
      if v.truthy ∧ ¬ text_body.isEmpty then
        match jsonToInt? v with
        | some n => { s with gh := s.gh ++ [GhOut.commentIssue n text_body] }
        | none => s
      else s
    | none => s
  else if block.hasKey "fetch" then
    let spec := block.getObjD "fetch"
    let art := spec.getStr? "artifact"
    let max_chars := match spec.getKey? "max_chars" with
      | some v => (jsonToInt? v).getD 4000
      | none => 4000
    match art with
    | some art_id =>
      if art_id.isEmpty then s
      else
        let (ev, note) := match loadArtifact s art_id max_chars with
          | some (bodyText, total) =>
            ((.jobj [("type", .jstr "ARTIFACT"), ("id", .jstr art_id),
              ("chars", .jnum bodyText.data.length), ("total", .jnum total),
              ("body", .jstr bodyText)] : Json),
              "Fetched artifact " ++ art_id ++ " (" ++ toString bodyText.data.length ++
                "/" ++ toString total ++ " chars)")
          | none =>
            ((.jobj [("type", .jstr "ARTIFACT_ERROR"), ("id", .jstr art_id),
              ("error", .jstr "not found")] : Json),
              "Artifact " ++ art_id ++ " not available (not found)")
        let s := { s with orch_extra_blocks := s.orch_extra_blocks ++ [ev] }
        let s := s.broadcast "hub" "artifact_note" (.jobj [("note", .jstr note)])
        s.maybe_send_digest "fetch"
    | none => s
  else if block.hasKey "spawn" then
    let spec := (block.getKey? "spawn").getD .jnull
    let name := spec.getStr? "name"
    let task := spec.getStrD "task"
    let cwd := match spec.getStr? "cwd" with
      | some c => if c.isEmpty then s.default_cwd else some c
      | none => s.default_cwd
    if s.wip_limit ≠ 0 ∧ s.wip_limit ≤ s.subs.length then
      s.send_orch ("HUB: WIP limit " ++ toString s.wip_limit ++
        " reached; please close an agent before spawning '" ++ displayOpt name ++ "'.")
    else
      let s := s.broadcast "orchestrator" "orch_to_agent"
        (.jobj [("action", .jstr "spawn"),
          ("agent", match name with | some n => .jstr n | none => .jnull),
          ("text", .jstr task)])
      s.spawn_sub name task cwd
  else if block.hasKey "send" then
    let spec := (block.getKey? "send").getD .jnull
    let name := spec.getStr? "to"
    let task := spec.getStrD "task"
    let s := s.broadcast "orchestrator" "orch_to_agent"
      (.jobj [("action", .jstr "send"),
        ("agent", match name with | some n => .jstr n | none => .jnull),
        ("text", .jstr task)])
    s.send_to_sub name task
  else if block.hasKey "close" then
    let spec := (block.getKey? "close").getD .jnull
    let name := spec.getStr? "agent"
    let reason := spec.getStrD "reason"
    let s := s.broadcast "orchestrator" "orch_to_agent"
      (.jobj [("action", .jstr "close"),
        ("agent", match name with | some n => .jstr n | none => .jnull),
        ("text", .jstr reason)])
    s.close_sub name
  else s

/-- `Hub._handle_orchestrator_text` (lines 516-524): broadcast the stripped
display text when non-empty, then interpret each extracted control block in
order. -/
def Hub.handle_orchestrator_text (runner : ExecRunner) (s : Hub) (text : String) :
    Hub :=
  let blocks := extract_control_blocks (some text)
  let display := strip_control_blocks text
  let s := if ¬ display.isEmpty then
      s.broadcast "orchestrator" "orch_to_user" (.jobj [("text", .jstr display)])
    else s
  blocks.foldl (Hub.handle_control_block runner) s

/-- `Hub._autoapprove` (lines 666-700). -/
def Hub.autoapprove (s : Hub) (request_id : Nat) (method : String) (params : Json) :
    Hub :=
  let approved := s.dangerous ∧ s.autopilot_enabled
  let decision := if approved then "approved" else "denied"
  let lower := pyLower method
  let description :=
    if lower = "execcommandapproval" then
      let command := match params.getKey? "command" with
        | some (.jarr xs) =>
          joinSpace (xs.map (fun j => match j with | .jstr t => t | _ => ""))
        | _ => ""
      pyStrip ("exec command " ++ command)
    else if lower = "applypatchapproval" then "apply patch"
    else method
  let denial_reason := if ¬ s.autopilot_enabled then "autopilot disabled"
    else "dangerous mode disabled"
  let status_text := if approved then "HUB: auto-approved " ++ description ++ "."
    else "HUB: denied " ++ description ++ " because " ++ denial_reason ++ "."
  let s := { s with calls := s.calls ++ [RpcOut.respond request_id decision] }
  let s := s.broadcast "hub" "status" (.jobj [("text", .jstr status_text)])
  if ¬ approved then
    s.send_orch ("HUB: denied " ++ description ++ " because " ++ denial_reason ++
      ". Enable autopilot or dangerous mode to allow.")
  else s

/-- `Hub._handle_request` (lines 381-388). -/
def Hub.handle_request (s : Hub) (method : String) (params : Json)
    (request_id : Option Nat) : Hub :=
  match request_id with
  | none => s
  | some rid =>
    let low := pyLower method
    if low = "execcommandapproval" ∨ low = "applypatchapproval" then
      s.autoapprove rid method params
    else
      { s with calls := s.calls ++
          [RpcOut.respondError rid (-32601) ("Unhandled request: " ++ method)] }

/-- `Hub._parse_duration` (lines 1147-1165) for the integer-valued strings the
hub is configured with (`"10m"`, `"45m"`, plain seconds; the model returns the
default for inputs its integer reading cannot parse, as the source's
`except` does for unparsable text). -/
def parse_duration (value : Option String) (default_seconds : Int) : Int :=
  match value with
  | none => default_seconds
  | some v =>
    if v.isEmpty then default_seconds
    else
      let text := (pyStrip v).data.map pyLowerChar
      let num := fun (ds : List Char) =>
        if ¬ ds.isEmpty ∧ ds.all Char.isDigit then some (digitsToInt ds) else none
      match text.getLast? with
      | none => default_seconds
      | some last =>
        if text.length ≥ 2 ∧ text.getLast? = some 's' ∧
            text.get? (text.length - 2) = some 'm' then
          match num (text.take (text.length - 2)) with
          | some n => max 1 (n / 1000)
          | none => default_seconds
        else if last = 's' then
          match num (text.take (text.length - 1)) with
          | some n => n
          | none => default_seconds
        else if last = 'm' then
          match num (text.take (text.length - 1)) with
          | some n => n * 60
          | none => default_seconds
        else if last = 'h' then
          match num (text.take (text.length - 1)) with
          | some n => n * 3600
          | none => default_seconds
        else if last = 'd' then
          match num (text.take (text.length - 1)) with
          | some n => n * 86400
          | none => default_seconds
        else
          match num text with
          | some n => n
          | none => default_seconds

/-- `Hub.__init__` (lines 156-212): the hub configuration and empty state.
`repo_path` bookkeeping, stderr rings and the state-file path are
observability details outside the model. -/
def Hub.init (dangerous : Bool) (default_cwd : Option String)
    (model : Option String) (wip_limit : Int) (default_checkin : Option String)
    (default_budget : Option String) : Hub :=
  { dangerous := dangerous
    wip_limit := wip_limit.toNat
    default_cwd := default_cwd
    model := model
    default_checkin_seconds := parse_duration default_checkin 600
    default_budget_seconds := parse_duration default_budget (45 * 60)
    autopilot_enabled := true
    autopilot_warned := false
    decide_debounce_s := 3
    orchestrator := none
    subs := []
    conv_to_name := []
    agent_state := []
    agent_meta := []
    issue_to_agent := []
    last_checkin := []
    sequence := 0
    events := []
    calls := []
    gh := []
    orch_dirty := []
    orch_extra_blocks := []
    orch_last_sent := 0
    decision_log := []
    status_cache := []
    artifact_store := []
    next_artifact := 0
    next_conv := 0
    now := 0 }

/-- `Hub.start` (lines 214-266): broadcast `app-server` agent events, create
the orchestrator conversation seeded with the system preamble and the seed
text, broadcast its events and the autopilot state, and initialise the
check-in table.  (Transport start/initialize and the background tasks are
the external side.) -/
def Hub.start (s : Hub) (seed_text : String) : Hub :=
  let s := { s with agent_state := setA s.agent_state "app-server" "running" }
  let s := s.broadcast "app-server" "agent_added" (.jobj [("agent", .jstr "app-server")])
  let s := s.broadcast "app-server" "agent_state"
    (.jobj [("agent", .jstr "app-server"), ("state", .jstr "running")])
  let initial := [FALLBACK_SYSTEM_MSG ++ "ORCHESTRATOR SYSTEM",
    "HUB: Ready. You may emit CONTROL blocks to spawn or message sub-agents.\n\nSeed context:\n" ++
      seed_text ++ "\n"]
  let sc := s.create_conversation (s.default_cwd.getD os_getcwd) initial
  let s := sc.1
  let conv_id := sc.2
  let s := { s with
    orchestrator := some ⟨"orchestrator", conv_id, "idle", 0, none, none⟩,
    agent_state := setA s.agent_state "orchestrator" "idle" }
  let s := s.broadcast "orchestrator" "agent_added"
    (.jobj [("agent", .jstr "orchestrator")])
  let s := s.broadcast "orchestrator" "agent_state"
    (.jobj [("agent", .jstr "orchestrator"), ("state", .jstr "idle")])
  let s := s.broadcast "hub" "autopilot_state"
    (.jobj [("enabled", .jbool s.autopilot_enabled)])
  let lc := setA s.last_checkin "app-server" (-1 : Int)
  { s with last_checkin := setA lc "orchestrator" (-1 : Int) }

/-- `Hub.set_autopilot` (lines 286-296). -/
def Hub.set_autopilot (s : Hub) (enabled : Bool) : Hub :=
  if s.autopilot_enabled = enabled then s
  else
    let s := { s with autopilot_enabled := enabled, autopilot_warned := false }
    let s := s.broadcast "hub" "autopilot_state" (.jobj [("enabled", .jbool enabled)])
    s.send_orch ("HUB: autopilot " ++ (if enabled then "enabled" else "disabled") ++
      " by human controller.")

/-! ## The GitHub scheduler: one `_poll_github` iteration (lines 956-1005)

`list_orchestrate_issues` (github_sync.py lines 182-210) runs
`gh issue list --label orchestrate --state open` and builds `IssueDetails`
records without a `body` field (it defaults to `""`): the `issues` argument
below is that decoded list.  `ghEnsure` models `ensure_status_comment`
(`none` = the swallowed `GitHubError`). -/

/-- The autopilot tail appended to every issue prompt. -/
def issuePromptTail : String :=
  "\n\nYou have high permissions and autopilot is enabled. " ++
  "Create a small, testable branch or PR. Provide regular check-ins. " ++
  "When done, map outcomes to Acceptance and reference this issue."

/-- Spawn one ready issue (`_poll_github` loop body). -/
def Hub.spawn_issue (ghEnsure : Int → Option Int) (s : Hub)
    (issue : IssueDetails) : Hub :=
  let prompt := format_issue_prompt issue (parse_issue_body issue.body) ++
    issuePromptTail
  let name := "iss" ++ toString issue.number
  let s := s.spawn_sub (some name) prompt s.default_cwd
  let s := match getA s.agent_meta name with
    | none => s
    | some meta =>
      let (sla_checkin, sla_budget) := sla_from_labels issue.labels
      let meta := { meta with
        issue_number := some issue.number,
        checkin_seconds := sla_checkin.getD s.default_checkin_seconds,
        budget_seconds := sla_budget.getD s.default_budget_seconds }
      let s := { s with agent_meta := setA s.agent_meta name meta }
      let s := { s with gh := s.gh ++ [GhOut.ensureStatusComment issue.number] }
      match ghEnsure issue.number with
      | some cid =>
        { s with
          agent_meta := setA s.agent_meta name { meta with status_comment_id := some cid },
          status_cache := setA s.status_cache issue.number cid }
      | none => s
  { s with issue_to_agent := setA s.issue_to_agent issue.number name }

/-- Ready set of one poll: issues not active and not closed whose blocker
list, after removing blockers in the closed set, is empty.  `closed` is
computed from the *listed* issues (which the `--state open` query restricts
to open ones). -/
def Hub.poll_ready (s : Hub) (issues : List IssueDetails) : List IssueDetails :=
  let closed := (issues.filter
    (fun i => pyLower i.state = "closed")).map IssueDetails.number
  let active := s.issue_to_agent.map Prod.fst
  issues.filter (fun i =>
    ¬ active.contains i.number ∧ ¬ closed.contains i.number ∧
      ((parse_blockers i.body i.labels).filter
        (fun b => ¬ closed.contains b)).isEmpty)

/-- One iteration of `Hub._poll_github`. -/
def Hub.poll_github_once (ghEnsure : Int → Option Int) (s : Hub)
    (issues : List IssueDetails) : Hub :=
  let ready := s.poll_ready issues
  let capacity := if s.wip_limit ≠ 0 then s.wip_limit - s.subs.length
    else ready.length
  (ready.take capacity).foldl (Hub.spawn_issue ghEnsure) s

/-! ## Concrete scenario states used by the claims -/

/-- The spec's scenario S1 input text
`"pre\n```control\n{"spawn":{"name":"a","task":"t"}}\n```\npost"`. -/
def S1_input : String :=
  "pre\n```control\n\x7b\"spawn\":\x7b\"name\":\"a\",\"task\":\"t\"\x7d\x7d\n```\npost"

/-- The single control object the spec expects `extract` to return on S1. -/
def S1_block : Json :=
  Json.jobj [("spawn", Json.jobj [("name", Json.jstr "a"), ("task", Json.jstr "t")])]

/-- A runner oracle that is never consulted on the paths under proof. -/
def unusedRunner : ExecRunner := fun _ _ _ => Except.error "unused"

/-- A started hub with `wip_limit = 5` (the S6 scheduler scenario). -/
def hubWip5 : Hub :=
  Hub.start (Hub.init true (some "/repo") none 5 (some "10m") (some "45m")) "seed"

def issue10 : IssueDetails := ⟨10, "t10", "OPEN", "u10", ["orchestrate"], ""⟩

def issue11 : IssueDetails :=
  ⟨11, "t11", "OPEN", "u11", ["orchestrate", "blocked-by:#10"], ""⟩

def ghEnsureOk : Int → Option Int := fun _ => some 77

/-- First S6 poll: both issues open. -/
def pollFirst : Hub := Hub.poll_github_once ghEnsureOk hubWip5 [issue10, issue11]

/-- Issue #10 is then closed and its agent closed; `gh issue list --state
open` now returns only #11. -/
def pollFirstClosed : Hub := Hub.close_sub pollFirst (some "iss10")

/-- Second S6 poll: only the still-open #11 is listed. -/
def pollSecond : Hub := Hub.poll_github_once ghEnsureOk pollFirstClosed [issue11]

/-- A started hub with `wip_limit = 1`. -/
def hubWip1 : Hub := Hub.start (Hub.init true (some "/repo") none 1 none none) "seed"

/-- One sub-agent spawned (within the limit). -/
def hubOneSub : Hub := Hub.spawn_sub hubWip1 (some "a") "t" none

/-- A second direct `spawn_sub` call — the path the CLI `:spawn` command
takes — which performs no WIP check. -/
def hubTwoSubs : Hub := Hub.spawn_sub hubOneSub (some "b") "t" none

/-- A started hub with `dangerous = false` (autopilot stays at its default
`true`): the S4 approval scenario. -/
def hubSafe : Hub := Hub.start (Hub.init false none none 3 none none) "seed"

/-- `execCommandApproval` params `{command: ["rm", "-rf", "/"]}`. -/
def rmParams : Json :=
  Json.jobj [("command", Json.jarr [Json.jstr "rm", Json.jstr "-rf", Json.jstr "/"])]

/-- A spawn control block for a fresh agent `b`. -/
def spawnBlockB : Json :=
  Json.jobj [("spawn", Json.jobj [("name", Json.jstr "b"), ("task", Json.jstr "t")])]

/-- An exec spec `{argv: ["rm", "-rf", "/"]}` (not allow-listed). -/
def rmSpec : Json :=
  Json.jobj [("argv", Json.jarr [Json.jstr "rm", Json.jstr "-rf", Json.jstr "/"])]

/-- A control block `{exec: {argv: ["rm", "-rf", "/"]}}`. -/
def execBlockRm : Json := Json.jobj [("exec", rmSpec)]

/-- An exec spec `{argv: ["git", "status"]}` (allow-listed). -/
def gitStatusSpec : Json :=
  Json.jobj [("argv", Json.jarr [Json.jstr "git", Json.jstr "status"])]

/-- A started hub with autopilot switched off by the human controller. -/
def hubAutopilotOff : Hub := Hub.set_autopilot hubWip1 false

/-- The event broadcast for a suppressed control block. -/
def suppressedEvent (s : Hub) (block : Json) : Event :=
  ⟨s.sequence + 1, "orchestrator", "autopilot_suppressed",
    Json.jobj [("summary", Json.jstr (block.firstKeyD "control")), ("control", block)]⟩

/-- Substring containment, used to state "a prose note containing …". -/
def containsSub (s pat : String) : Prop := ∃ a b : String, s = a ++ pat ++ b

/-- Fold a list of broadcasts through `Hub._broadcast`. -/
def broadcastFold (s : Hub) (ps : List (String × String × Json)) : Hub :=
  ps.foldl (fun st p => st.broadcast p.1 p.2.1 p.2.2) s

/-! ### Lemmas about `normalise_agent_name` (claim C9) -/

/-- Characters that may appear in a normalised name. -/
def normChar (c : Char) : Prop := isLowerDigit c = true ∨ c = '_'

/-- No two adjacent underscores. -/
def noDouble : List Char → Bool
  | [] => true
  | [_] => true
  | a :: b :: rest => !(a = '_' && b = '_') && noDouble (b :: rest)

theorem noDouble_tail {x : Char} {l : List Char} (h : noDouble (x :: l) = true) :
    noDouble l = true := by
  cases l with
  | nil => rfl
  | cons b rest =>
    simp only [noDouble, Bool.and_eq_true] at h
    exact h.2

theorem noDouble_cons_of_ne {x : Char} {l : List Char} (hx : ¬ x = '_')
    (h : noDouble l = true) : noDouble (x :: l) = true := by
  cases l with
  | nil => rfl
  | cons b rest =>
    simp only [noDouble, Bool.and_eq_true, Bool.not_eq_true', Bool.and_eq_false_iff]
    refine ⟨?_, h⟩
    left
    exact decide_eq_false hx

theorem isLowerDigit_ne_underscore {c : Char} (h : isLowerDigit c = true) : ¬ c = '_' := by
  intro he
  subst he
  simp [isLowerDigit] at h

theorem normChar_pyLower {c : Char} (h : normChar c) : pyLowerChar c = c := by
  have hn : ¬ (65 ≤ c.toNat ∧ c.toNat ≤ 90) := by
    rcases h with h | h
    · simp only [isLowerDigit, Bool.or_eq_true, Bool.and_eq_true, decide_eq_true_eq] at h
      omega
    · subst h
      intro hc
      have : ('_').toNat = 95 := by decide
      omega
  simp [pyLowerChar, hn]

/-- Joint facts about `replaceRuns`/`skipRun`: every output character is a kept
character or the replacement; no two adjacent underscores; `skipRun` output
never starts with the replacement. -/
theorem replaceRuns_facts :
    ∀ n l, List.length l ≤ n →
      ((∀ c ∈ replaceRuns isLowerDigit '_' l, normChar c) ∧
        noDouble (replaceRuns isLowerDigit '_' l) = true) ∧
      ((∀ c ∈ skipRun isLowerDigit '_' l, normChar c) ∧
        noDouble (skipRun isLowerDigit '_' l) = true ∧
        ∀ c rest, skipRun isLowerDigit '_' l = c :: rest → ¬ c = '_') := by
  intro n
  induction n with
  | zero =>
    intro l hl
    have : l = [] := List.length_eq_zero.mp (Nat.le_zero.mp hl)
    subst this
    refine ⟨⟨?_, rfl⟩, ?_, rfl, ?_⟩ <;> simp [replaceRuns, skipRun]
  | succ n ih =>
    intro l hl
    cases l with
    | nil =>
      refine ⟨⟨?_, rfl⟩, ?_, rfl, ?_⟩ <;> simp [replaceRuns, skipRun]
    | cons c rest =>
      have hrest : List.length rest ≤ n := by
        simp only [List.length_cons] at hl
        omega
      obtain ⟨⟨rmem, rnd⟩, smem, snd, shead⟩ := ih rest hrest
      by_cases hc : isLowerDigit c = true
      · have hne := isLowerDigit_ne_underscore hc
        have hrepl : replaceRuns isLowerDigit '_' (c :: rest) =
            c :: replaceRuns isLowerDigit '_' rest := by
          simp [replaceRuns, hc]
        have hskip : skipRun isLowerDigit '_' (c :: rest) =
            c :: replaceRuns isLowerDigit '_' rest := by
          simp [skipRun, hc]
        rw [hrepl, hskip]
        refine ⟨⟨?_, noDouble_cons_of_ne hne rnd⟩, ?_, noDouble_cons_of_ne hne rnd, ?_⟩
        · intro x hx
          rcases List.mem_cons.mp hx with rfl | hx
          · exact Or.inl hc
          · exact rmem x hx
        · intro x hx
          rcases List.mem_cons.mp hx with rfl | hx
          · exact Or.inl hc
          · exact rmem x hx
        · intro x r hx
          exact (List.cons.injEq _ _ _ _ ▸ hx).1 ▸ hne
      · have hrepl : replaceRuns isLowerDigit '_' (c :: rest) =
            '_' :: skipRun isLowerDigit '_' rest := by
          simp [replaceRuns, hc]
        have hskip : skipRun isLowerDigit '_' (c :: rest) =
            skipRun isLowerDigit '_' rest := by
          simp [skipRun, hc]
        rw [hrepl, hskip]
        refine ⟨⟨?_, ?_⟩, smem, snd, shead⟩
        · intro x hx
          rcases List.mem_cons.mp hx with rfl | hx
          · exact Or.inr rfl
          · exact smem x hx
        · cases hs : skipRun isLowerDigit '_' rest with
          | nil => rfl
          | cons d r =>
            have hd : ¬ d = '_' := shead d r hs
            have hsnd : noDouble (d :: r) = true := hs ▸ snd
            simp only [noDouble, Bool.and_eq_true]
            exact ⟨by simp [hd], hsnd⟩

theorem dropLeadingP_subset {p : Char → Bool} :
    ∀ l, ∀ c ∈ dropLeadingP p l, c ∈ l := by
  intro l
  induction l with
  | nil => intro c hc; simp [dropLeadingP] at hc
  | cons a rest ih =>
    intro c hc
    by_cases ha : p a = true
    · simp only [dropLeadingP, ha, if_pos] at hc
      exact List.mem_cons_of_mem a (ih c hc)
    · simp only [dropLeadingP, ha, if_neg] at hc
      exact hc

theorem dropTrailingP_subset {p : Char → Bool} :
    ∀ l, ∀ c ∈ dropTrailingP p l, c ∈ l := by
  intro l
  induction l with
  | nil => intro c hc; simp [dropTrailingP] at hc
  | cons a rest ih =>
    intro c hc
    simp only [dropTrailingP] at hc
    by_cases hr : (dropTrailingP p rest).isEmpty && p a
    · rw [if_pos hr] at hc
      exact absurd hc (List.not_mem_nil c)
    · rw [if_neg hr] at hc
      rcases List.mem_cons.mp hc with rfl | hc
      · exact List.mem_cons_self c rest
      · exact List.mem_cons_of_mem a (ih c hc)

theorem noDouble_dropLeadingP {p : Char → Bool} :
    ∀ l, noDouble l = true → noDouble (dropLeadingP p l) = true := by
  intro l
  induction l with
  | nil => intro _; rfl
  | cons a rest ih =>
    intro h
    by_cases ha : p a = true
    · simp only [dropLeadingP, ha, if_pos]
      exact ih (noDouble_tail h)
    · simp only [dropLeadingP, ha, if_neg]
      exact h

theorem dropTrailingP_head {p : Char → Bool} (a : Char) (rest : List Char) :
    dropTrailingP p (a :: rest) = [] ∨
      ∃ r, dropTrailingP p (a :: rest) = a :: r := by
  simp only [dropTrailingP]
  by_cases h : (dropTrailingP p rest).isEmpty && p a
  · exact Or.inl (if_pos h)
  · exact Or.inr ⟨dropTrailingP p rest, if_neg h⟩

theorem noDouble_dropTrailingP {p : Char → Bool} :
    ∀ l, noDouble l = true → noDouble (dropTrailingP p l) = true := by
  intro l
  induction l with
  | nil => intro _; rfl
  | cons a rest ih =>
    intro h
    simp only [dropTrailingP]
    by_cases hr : (dropTrailingP p rest).isEmpty && p a
    · rw [if_pos hr]; rfl
    · rw [if_neg hr]
      have hrest := ih (noDouble_tail h)
      cases rest with
      | nil => rfl
      | cons b r2 =>
        rcases dropTrailingP_head (p := p) b r2 with he | ⟨r3, he⟩
        · rw [he]; rfl
        · rw [he] at hrest ⊢
          simp only [noDouble, Bool.and_eq_true] at h ⊢
          exact ⟨h.1, hrest⟩

theorem dropTrailingP_idem {p : Char → Bool} :
    ∀ l, dropTrailingP p (dropTrailingP p l) = dropTrailingP p l := by
  intro l
  induction l with
  | nil => rfl
  | cons a rest ih =>
    by_cases h : ((dropTrailingP p rest).isEmpty && p a) = true
    · show dropTrailingP p (if (dropTrailingP p rest).isEmpty && p a then [] else _) = _
      rw [if_pos h]
      show ([] : List Char) = if (dropTrailingP p rest).isEmpty && p a then [] else _
      rw [if_pos h]
    · show dropTrailingP p (if (dropTrailingP p rest).isEmpty && p a then [] else _) = _
      rw [if_neg h]
      show (if (dropTrailingP p (dropTrailingP p rest)).isEmpty && p a then []
        else a :: dropTrailingP p (dropTrailingP p rest)) = _
      rw [ih, if_neg h]
      show a :: dropTrailingP p rest =
        if (dropTrailingP p rest).isEmpty && p a then [] else a :: dropTrailingP p rest
      rw [if_neg h]

theorem dropLeadingP_head {p : Char → Bool} :
    ∀ l, dropLeadingP p l = [] ∨
      ∃ c rest, dropLeadingP p l = c :: rest ∧ p c = false := by
  intro l
  induction l with
  | nil => exact Or.inl rfl
  | cons a rest ih =>
    by_cases h : p a = true
    · simpa [dropLeadingP, h] using ih
    · exact Or.inr ⟨a, rest, by simp [dropLeadingP, h], Bool.not_eq_true _ ▸ h⟩

theorem dropLeadingP_of_head_false {p : Char → Bool} {c : Char} {rest : List Char}
    (h : p c = false) : dropLeadingP p (c :: rest) = c :: rest := by
  simp [dropLeadingP, h]

theorem pyStripChar_idem (t : Char) (l : List Char) :
    pyStripChar t (pyStripChar t l) = pyStripChar t l := by
  unfold pyStripChar
  have key : dropLeadingP (fun c => c = t)
      (dropTrailingP (fun c => c = t) (dropLeadingP (fun c => c = t) l)) =
      dropTrailingP (fun c => c = t) (dropLeadingP (fun c => c = t) l) := by
    rcases dropLeadingP_head (p := fun c => c = t) l with h | ⟨c, rest, h, hc⟩
    · rw [h]; rfl
    · rw [h]
      rcases dropTrailingP_head (p := fun c => c = t) c rest with h2 | ⟨r, h2⟩
      · rw [h2]; rfl
      · rw [h2]
        exact dropLeadingP_of_head_false hc
  rw [key, dropTrailingP_idem]

theorem map_pyLower_fix {l : List Char} (h : ∀ c ∈ l, normChar c) :
    l.map pyLowerChar = l := by
  induction l with
  | nil => rfl
  | cons a rest ih =>
    simp only [List.map_cons]
    rw [normChar_pyLower (h a (List.mem_cons_self a rest)),
      ih (fun c hc => h c (List.mem_cons_of_mem a hc))]

theorem replaceRuns_fix :
    ∀ n l, List.length l ≤ n → (∀ c ∈ l, normChar c) → noDouble l = true →
      replaceRuns isLowerDigit '_' l = l := by
  intro n
  induction n with
  | zero =>
    intro l hl _ _
    have : l = [] := List.length_eq_zero.mp (Nat.le_zero.mp hl)
    subst this
    rfl
  | succ n ih =>
    intro l hl hmem hnd
    cases l with
    | nil => rfl
    | cons c rest =>
      have hlen : List.length rest ≤ n := by
        simp only [List.length_cons] at hl
        omega
      rcases hmem c (List.mem_cons_self c rest) with hc | hc
      · have hrepl : replaceRuns isLowerDigit '_' (c :: rest) =
            c :: replaceRuns isLowerDigit '_' rest := by
          simp [replaceRuns, hc]
        rw [hrepl,
          ih rest hlen (fun x hx => hmem x (List.mem_cons_of_mem c hx)) (noDouble_tail hnd)]
      · subst hc
        have hck : ¬ isLowerDigit '_' = true := by decide
        have hrepl : replaceRuns isLowerDigit '_' ('_' :: rest) =
            '_' :: skipRun isLowerDigit '_' rest := by
          simp [replaceRuns, hck]
        rw [hrepl]
        cases rest with
        | nil => rfl
        | cons d rest2 =>
          have hd : ¬ d = '_' := by
            intro he
            subst he
            simp [noDouble] at hnd
          have hdk : isLowerDigit d = true := by
            rcases hmem d (List.mem_cons_of_mem _ (List.mem_cons_self d rest2)) with h | h
            · exact h
            · exact absurd h hd
          have hskip : skipRun isLowerDigit '_' (d :: rest2) =
              d :: replaceRuns isLowerDigit '_' rest2 := by
            simp [skipRun, hdk]
          rw [hskip]
          have hlen2 : List.length rest2 ≤ n := by
            simp only [List.length_cons] at hl
            omega
          rw [ih rest2 hlen2
            (fun x hx => hmem x (List.mem_cons_of_mem _ (List.mem_cons_of_mem _ hx)))
            (noDouble_tail (noDouble_tail hnd))]

theorem normalise_shape_core (name : Option String) :
    ((normalise_agent_name name).data ≠ [] ∧
      ∀ c ∈ (normalise_agent_name name).data, normChar c) ∧
    noDouble (normalise_agent_name name).data = true := by
  unfold normalise_agent_name
  set lowered := (name.getD "").data.map pyLowerChar with hlow
  set r := replaceRuns isLowerDigit '_' lowered with hr
  set token := pyStripChar '_' r with htok
  obtain ⟨⟨rmem, rnd⟩, -⟩ := replaceRuns_facts (List.length lowered) lowered (le_refl _)
  have tmem : ∀ c ∈ token, normChar c := by
    intro c hc
    exact rmem c (dropLeadingP_subset _ c (dropTrailingP_subset _ c hc))
  have tnd : noDouble token = true :=
    noDouble_dropTrailingP _ (noDouble_dropLeadingP _ rnd)
  by_cases he : token.isEmpty = true
  · simp only [he, if_pos]
    refine ⟨⟨by decide, ?_⟩, by decide⟩
    intro c hc
    have hc2 : c ∈ ['a', 'g', 'e', 'n', 't'] := hc
    simp only [List.mem_cons, List.not_mem_nil, or_false] at hc2
    rcases hc2 with rfl | rfl | rfl | rfl | rfl <;> exact Or.inl (by decide)
  · simp only [he, Bool.false_eq_true, if_neg, not_false_eq_true]
    refine ⟨⟨?_, ?_⟩, ?_⟩
    · intro hd
      exact he (by simpa [List.isEmpty_iff] using hd)
    · intro c hc
      exact tmem c hc
    · exact tnd

theorem normalise_idem_aux (name : Option String) :
    normalise_agent_name (some (normalise_agent_name name)) = normalise_agent_name name := by
  obtain ⟨⟨hne, hmem⟩, hnd⟩ := normalise_shape_core name
  by_cases hagent : normalise_agent_name name = "agent"
  · rw [hagent]
    decide
  · -- the result is the non-empty stripped token; push it through the pipeline again
    have hdata : (normalise_agent_name name).data.map pyLowerChar =
        (normalise_agent_name name).data := map_pyLower_fix hmem
    have hfix : replaceRuns isLowerDigit '_' (normalise_agent_name name).data =
        (normalise_agent_name name).data :=
      replaceRuns_fix (List.length (normalise_agent_name name).data) _ (le_refl _) hmem hnd
    have hstrip : pyStripChar '_' (normalise_agent_name name).data =
        (normalise_agent_name name).data := by
      have : (normalise_agent_name name).data =
          pyStripChar '_' (replaceRuns isLowerDigit '_'
            ((name.getD "").data.map pyLowerChar)) := by
        unfold normalise_agent_name
        by_cases he : (pyStripChar '_' (replaceRuns isLowerDigit '_'
            ((name.getD "").data.map pyLowerChar))).isEmpty = true
        · exfalso
          apply hagent
          unfold normalise_agent_name
          simp only [he, if_pos]
        · simp only [he, Bool.false_eq_true, if_neg, not_false_eq_true]
      rw [this, pyStripChar_idem]
    show (let lowered := (some (normalise_agent_name name)).getD "" |>.data.map pyLowerChar
      let token := pyStripChar '_' (replaceRuns isLowerDigit '_' lowered)
      if token.isEmpty then "agent" else String.mk token) = normalise_agent_name name
    simp only [Option.getD_some]
    rw [hdata, hfix, hstrip]
    have hne2 : (normalise_agent_name name).data.isEmpty = false := by
      cases h : (normalise_agent_name name).data with
      | nil => exact absurd h hne
      | cons a l => rfl
    simp only [hne2, Bool.false_eq_true, if_neg, not_false_eq_true]

/-- C9: for every string `x`, `normalise_agent_name` is idempotent
(`norm (norm x) = norm x`), and its result either matches `^[a-z0-9_]+$`
(non-empty, every character a lowercase letter, digit or underscore) or equals
`"agent"`.  The definition itself is the source's pipeline: lowercase, replace
runs of characters outside `[a-z0-9]` by `_`, strip leading and trailing `_`,
and map the empty result to `"agent"`. -/
theorem C9_normalise_agent_name_idempotent_and_shape (name : Option String) :
    normalise_agent_name (some (normalise_agent_name name)) = normalise_agent_name name ∧
    (((normalise_agent_name name).data ≠ [] ∧
        ∀ c ∈ (normalise_agent_name name).data, isLowerDigit c = true ∨ c = '_') ∨
      normalise_agent_name name = "agent") :=
  ⟨normalise_idem_aux name,
    Or.inl ⟨(normalise_shape_core name).1.1, fun c hc => (normalise_shape_core name).1.2 c hc⟩⟩

/-! ## Claim C1: control-block extraction round-trip (scenario S1) -/

/-- C1 (code bug): on the literal S1 input, `extract_control_blocks` does
return the single spawn object — but only through the single-line JSON
fallback, because the compiled `CONTROL_BLOCK_RE` demands a literal
backslash after `control` (the pattern is written `\\s` inside a raw
string) and so never matches an ordinary fence.  Consequently
`strip_control_blocks` removes nothing: it returns the input unchanged
instead of `"pre\npost"`, and `extract(strip(T))` returns the block again
instead of `[]`. -/
theorem C1_strip_control_blocks_is_noop_on_S1 :
    extract_control_blocks (some S1_input) = [S1_block] ∧
    strip_control_blocks S1_input = S1_input ∧
    ¬ strip_control_blocks S1_input = "pre\npost" ∧
    extract_control_blocks (some (strip_control_blocks S1_input)) = [S1_block] :=
  ⟨rfl, rfl, by decide, rfl⟩

/-! ## Claim C5: transport shutdown and pending calls -/

/-- C5 (code bug): `AppServerProcess.stop` closes stdin, waits, kills the
process and cancels the pumps, but never touches the pending-request table:
every still-pending outbound call stays pending (its future is neither
resolved nor failed at shutdown; the caller can only end by its own
`asyncio.wait_for` timeout).  No `TransportClosed` failure exists in the
code, contradicting the spec's shutdown contract. -/
theorem C5_stop_leaves_pending_requests_pending (t : AppServer) :
    (AppServer.stop t).pending = t.pending ∧
    (AppServer.stop t).alive = false ∧
    (AppServer.stop t).stdin_open = false :=
  ⟨rfl, rfl, rfl⟩

/-! ## Claim C4: blocker-respecting scheduling (scenario S6) -/

/-- C4 (code bug): with #10 open (no blockers) and #11 open labelled
`blocked-by:#10`, the first poll spawns an agent for #10 only — but after
#10 is closed, the next poll spawns nothing: `list_orchestrate_issues`
queries `--state open`, so the `closed` set computed from the listed issues
is always empty and a closed blocker is never discounted; #11 stays blocked
forever, contradicting the spec's "the next poll spawns for #11". -/
theorem C4_closed_blocker_never_unblocks :
    (pollFirst.subs.map Prod.fst = ["iss10"] ∧
      pollFirst.issue_to_agent = [(10, "iss10")]) ∧
    parse_blockers issue11.body issue11.labels = [10] ∧
    Hub.poll_ready pollFirstClosed [issue11] = [] ∧
    pollSecond = pollFirstClosed :=
  ⟨⟨rfl, rfl⟩, rfl, rfl, rfl⟩

/-! ## Claim C6: the WIP bound -/

/-- C6 (counterexample): the WIP check lives only in the control-block
interpreter.  `Hub.spawn_sub` itself — the public method the CLI `:spawn`
command calls directly — performs no WIP check, so from a started hub with
`wip_limit = 1` two direct `spawn_sub` calls leave two sub-agents: the bound
does not hold after every hub operation. -/
theorem C6_counterexample_direct_spawn_exceeds_wip :
    hubWip1.wip_limit = 1 ∧ hubOneSub.subs.length = 1 ∧ hubTwoSubs.subs.length = 2 :=
  ⟨rfl, rfl, rfl⟩

theorem setA_length_le {κ α : Type} [DecidableEq κ] :
    ∀ (m : List (κ × α)) (k : κ) (v : α), (setA m k v).length ≤ m.length + 1 := by
  intro m k v
  induction m with
  | nil => simp [setA]
  | cons p rest ih =>
    by_cases h : p.1 = k
    · simp [setA, h]
    · obtain ⟨k2, v2⟩ := p
      simp only [setA] at *
      split
      · simp
      · simp only [List.length_cons]
        omega

theorem delA_length_le {κ α : Type} [DecidableEq κ] :
    ∀ (m : List (κ × α)) (k : κ), (delA m k).length ≤ m.length := by
  intro m k
  induction m with
  | nil => simp [delA]
  | cons p rest ih =>
    obtain ⟨k2, v2⟩ := p
    simp only [delA]
    split
    · simp
    · simp only [List.length_cons]
      omega

theorem broadcast_subs (s : Hub) (who t : String) (p : Json) :
    (Hub.broadcast s who t p).subs = s.subs := rfl

theorem send_orch_subs (s : Hub) (txt : String) :
    (Hub.send_orch s txt).subs = s.subs := by
  unfold Hub.send_orch
  cases s.orchestrator <;> rfl

theorem mark_dirty_subs (s : Hub) (a : String) :
    (Hub.mark_dirty s a).subs = s.subs := by
  unfold Hub.mark_dirty
  split
  · rfl
  · split <;> rfl

theorem build_digest_subs (s : Hub) :
    (Hub.build_digest_text s).2.subs = s.subs := rfl

theorem send_digest_subs (s : Hub) (r : String) (f : Bool) :
    (Hub.send_digest s r f).subs = s.subs := by
  unfold Hub.send_digest
  split
  · rfl
  · split
    · rfl
    · dsimp only
      split <;> rfl

theorem maybe_send_digest_subs (s : Hub) (r : String) :
    (Hub.maybe_send_digest s r).subs = s.subs := by
  unfold Hub.maybe_send_digest
  split
  · rfl
  · split
    · rfl
    · split
      · rw [send_digest_subs]
      · rfl

theorem create_conversation_subs (s : Hub) (ws : String) (init : List String) :
    (Hub.create_conversation s ws init).1.subs = s.subs := rfl

theorem spawn_sub_subs_le (s : Hub) (n : Option String) (t : String)
    (c : Option String) : (Hub.spawn_sub s n t c).subs.length ≤ s.subs.length + 1 := by
  simp only [Hub.spawn_sub]
  split
  · rw [send_orch_subs]
    exact Nat.le_succ _
  · split
    · rw [send_orch_subs]
      exact Nat.le_succ _
    · rw [maybe_send_digest_subs, mark_dirty_subs, send_orch_subs, broadcast_subs,
        broadcast_subs]
      exact setA_length_le s.subs _ _

theorem send_to_sub_subs (s : Hub) (n : Option String) (t : String) :
    (Hub.send_to_sub s n t).subs = s.subs := by
  simp only [Hub.send_to_sub]
  split
  · rw [send_orch_subs]
  · split <;> rw [send_orch_subs]

theorem close_sub_subs_le (s : Hub) (n : Option String) :
    (Hub.close_sub s n).subs.length ≤ s.subs.length := by
  simp only [Hub.close_sub]
  split
  · rw [send_orch_subs]
  · rw [send_orch_subs, broadcast_subs]
    exact delA_length_le s.subs _

theorem handle_control_block_subs (runner : ExecRunner) (s : Hub) (block : Json) :
    (Hub.handle_control_block runner s block).subs.length ≤ s.subs.length + 1 ∧
    (s.wip_limit ≠ 0 → s.wip_limit ≤ s.subs.length →
      (Hub.handle_control_block runner s block).subs.length ≤ s.subs.length) := by
  simp only [Hub.handle_control_block]
  repeat' split
  all_goals refine ⟨?_, fun h1 h2 => ?_⟩
  all_goals first
    | (simp only [send_orch_subs, broadcast_subs, maybe_send_digest_subs,
        send_to_sub_subs]; omega)
    | omega
    | exact spawn_sub_subs_le _ _ _ _
    | exact Nat.le_succ_of_le (close_sub_subs_le _ _)
    | exact close_sub_subs_le _ _

/-- C6 (amended): when `wip_limit > 0`, control-block handling preserves
`|sub-agents| ≤ wip_limit`, and a spawn control block arriving at the limit
is rejected: the handler reduces to a single message to the orchestrator and
creates nothing.  (As stated the claim is false: the bound does not hold
after *every* hub operation, because a direct `spawn_sub` call — the CLI
`:spawn` path — performs no WIP check; see the counterexample.) -/
theorem C6_wip_bound_for_control_blocks (runner : ExecRunner) (s : Hub) (block : Json)
    (hw : 0 < s.wip_limit) (hb : s.subs.length ≤ s.wip_limit) :
    (Hub.handle_control_block runner s block).subs.length ≤ s.wip_limit ∧
    (s.wip_limit ≤ s.subs.length → s.autopilot_enabled = true →
      block.hasKey "exec" = false → block.hasKey "status" = false →
      block.hasKey "fetch" = false → block.hasKey "spawn" = true →
      Hub.handle_control_block runner s block =
        Hub.send_orch s ("HUB: WIP limit " ++ toString s.wip_limit ++
          " reached; please close an agent before spawning '" ++
          displayOpt (((block.getKey? "spawn").getD Json.jnull).getStr? "name") ++
          "'.")) := by
  constructor
  · obtain ⟨h1, h2⟩ := handle_control_block_subs runner s block
    by_cases hc : s.wip_limit ≤ s.subs.length
    · exact le_trans (h2 (by omega) hc) hb
    · omega
  · intro hlen hap hex hst hft hsp
    simp only [Hub.handle_control_block, hap, hex, hst, hft, hsp, not_true,
      Bool.false_eq_true, if_neg, if_pos, not_false_eq_true, if_false, if_true]
    rw [if_pos ⟨by omega, hlen⟩]

/-- Witness for C6: at a started hub with `wip_limit = 1` and one existing
sub-agent, a spawn control block keeps the bound and reduces to the WIP
rejection message. -/
theorem C6_wip_bound_for_control_blocks_witness :
    (Hub.handle_control_block unusedRunner hubOneSub spawnBlockB).subs.length ≤
      hubOneSub.wip_limit ∧
    Hub.handle_control_block unusedRunner hubOneSub spawnBlockB =
      Hub.send_orch hubOneSub ("HUB: WIP limit " ++ toString hubOneSub.wip_limit ++
        " reached; please close an agent before spawning '" ++
        displayOpt (((spawnBlockB.getKey? "spawn").getD Json.jnull).getStr? "name") ++
        "'.") :=
  ⟨(C6_wip_bound_for_control_blocks unusedRunner hubOneSub spawnBlockB
      (by decide) (by decide)).1,
    (C6_wip_bound_for_control_blocks unusedRunner hubOneSub spawnBlockB
      (by decide) (by decide)).2 (by decide) (by decide) (by decide) (by decide)
      (by decide) (by decide)⟩

/-! ## Claim C7: sequence numbers -/

theorem broadcastFold_seq_map (ps : List (String × String × Json)) :
    ∀ s : Hub, (broadcastFold s ps).events.map Event.seq =
      s.events.map Event.seq ++ List.range' (s.sequence + 1) ps.length := by
  induction ps with
  | nil =>
    intro s
    simp [broadcastFold, List.range']
  | cons p rest ih =>
    intro s
    rw [show broadcastFold s (p :: rest) =
      broadcastFold (Hub.broadcast s p.1 p.2.1 p.2.2) rest from rfl]
    rw [ih]
    simp only [Hub.broadcast, List.map_append, List.map_cons, List.map_nil,
      List.length_cons, List.range'_succ, List.append_assoc, List.cons_append,
      List.nil_append]

theorem chain'_succ_range' (n : Nat) : ∀ a : Nat,
    List.Chain' (fun x y => y = x + 1) (List.range' a n) := by
  induction n with
  | zero =>
    intro a
    simp [List.range']
  | succ n ih =>
    intro a
    rw [List.range'_succ]
    refine List.chain'_cons'.mpr ⟨?_, ih (a + 1)⟩
    intro y hy
    cases n with
    | zero => simp [List.range'] at hy
    | succ m =>
      rw [List.range'_succ] at hy
      simp only [List.head?_cons, Option.mem_def, Option.some.injEq] at hy
      omega

/-- C7: starting from a freshly constructed hub, any sequence of `n`
broadcasts yields events whose seq numbers are exactly `1, 2, …, n`:
strictly increasing, contiguous (each one more than its predecessor), and
therefore pairwise distinct. -/
theorem C7_broadcast_seq_strictly_increasing_contiguous
    (ps : List (String × String × Json)) :
    (broadcastFold (Hub.init true none none 3 none none) ps).events.map Event.seq =
      List.range' 1 ps.length ∧
    List.Chain' (fun a b => b = a + 1)
      ((broadcastFold (Hub.init true none none 3 none none) ps).events.map Event.seq) ∧
    List.Pairwise (fun a b => a < b)
      ((broadcastFold (Hub.init true none none 3 none none) ps).events.map Event.seq) ∧
    ((broadcastFold (Hub.init true none none 3 none none) ps).events.map Event.seq).Nodup := by
  have h := broadcastFold_seq_map ps (Hub.init true none none 3 none none)
  have h2 : (broadcastFold (Hub.init true none none 3 none none) ps).events.map Event.seq =
      List.range' 1 ps.length := by
    rw [h]
    rfl
  have hpw : List.Pairwise (fun a b => a < b) (List.range' 1 ps.length) :=
    List.pairwise_lt_range' 1 ps.length
  refine ⟨h2, ?_, ?_, ?_⟩
  · rw [h2]
    exact chain'_succ_range' ps.length 1
  · rw [h2]
    exact hpw
  · rw [h2]
    exact hpw.imp Nat.ne_of_lt

/-! ## Claim C3: approval handling -/

/-- C3: every `execCommandApproval` / `applyPatchApproval` request is answered
with `{decision: "approved"}` iff both dangerous mode and autopilot are
enabled, and `denied` otherwise; in the S4 scenario (`dangerous = false`,
autopilot at its default `true`) the `rm -rf /` request is denied and the
orchestrator is sent a prose note containing `"dangerous mode disabled"`. -/
theorem C3_approval_iff_dangerous_and_autopilot (s : Hub) (rid : Nat)
    (method : String) (params : Json)
    (h : pyLower method = "execcommandapproval" ∨ pyLower method = "applypatchapproval") :
    (∃ rest, (Hub.handle_request s method params (some rid)).calls =
        (s.calls ++ [RpcOut.respond rid
          (if s.dangerous ∧ s.autopilot_enabled then "approved" else "denied")]) ++ rest) ∧
    ((Hub.handle_request hubSafe "execCommandApproval" rmParams (some 9)).calls =
        hubSafe.calls ++
          [RpcOut.respond 9 "denied",
            RpcOut.sendUserMessage "conv:0"
              ["HUB: denied exec command rm -rf / because dangerous mode disabled. Enable autopilot or dangerous mode to allow."]] ∧
      containsSub
        "HUB: denied exec command rm -rf / because dangerous mode disabled. Enable autopilot or dangerous mode to allow."
        "dangerous mode disabled") := by
  refine ⟨?_, by decide,
    ⟨"HUB: denied exec command rm -rf / because ",
     ". Enable autopilot or dangerous mode to allow.", by decide⟩⟩
  simp only [Hub.handle_request, Hub.autoapprove, Hub.broadcast, Hub.send_orch]
  rw [if_pos h]
  by_cases hd : s.dangerous = true ∧ s.autopilot_enabled = true
  · rw [if_pos hd, if_pos hd, if_neg (by simp [hd])]
    exact ⟨[], by simp⟩
  · rw [if_neg hd, if_neg hd, if_pos (by simpa using hd)]
    cases s.orchestrator with
    | none => exact ⟨[], by simp⟩
    | some o => exact ⟨[RpcOut.sendUserMessage o.conversation_id _], rfl⟩

/-- Witness for C3 at the S4 scenario request. -/
theorem C3_approval_iff_dangerous_and_autopilot_witness :
    ∃ rest, (Hub.handle_request hubSafe "execCommandApproval" rmParams (some 9)).calls =
      (hubSafe.calls ++ [RpcOut.respond 9
        (if hubSafe.dangerous ∧ hubSafe.autopilot_enabled then "approved"
          else "denied")]) ++ rest :=
  (C3_approval_iff_dangerous_and_autopilot hubSafe 9 "execCommandApproval" rmParams
    (Or.inl (by decide))).1

/-! ## Claim C8: exec gating and the allow-list -/

/-- C8: an `exec` control block is acted on only when dangerous mode is on —
otherwise the handler reduces, for every runner, to a single note to the
orchestrator — and `run_exec` consults the `subprocess` runner iff the argv
passes the allow-list: a disallowed argv yields the structured denial
(`ok = false`, exit code 126, `denied: …` stderr) identically for every
runner, while for an allowed argv the result depends on the runner (the
command is actually executed). -/
theorem C8_exec_allowlist_gating (s : Hub) (block spec : Json)
    (allow : List (String × List String)) (runner r1 r2 : ExecRunner) :
    (s.autopilot_enabled = true → block.hasKey "exec" = true → s.dangerous = false →
      Hub.handle_control_block runner s block =
        Hub.send_orch s "HUB: exec control block ignored because dangerous mode is off.") ∧
    (_is_allowed (execArgv spec) allow = false →
      run_exec spec allow r1 = run_exec spec allow r2 ∧
      (run_exec spec allow r1).ok = false ∧
      (run_exec spec allow r1).code = 126 ∧
      (run_exec spec allow r1).stderr =
        "denied: " ++ (if (joinSpace (execArgv spec)).isEmpty then "empty command"
          else joinSpace (execArgv spec))) ∧
    (_is_allowed (execArgv spec) allow = true →
      ∃ q1 q2 : ExecRunner, run_exec spec allow q1 ≠ run_exec spec allow q2) := by
  refine ⟨?_, ?_, ?_⟩
  · intro hap hex hd
    simp [Hub.handle_control_block, hap, hex, hd]
  · intro hna
    refine ⟨?_, ?_, ?_, ?_⟩ <;> simp [run_exec, hna]
  · intro ha
    refine ⟨fun _ _ _ => Except.ok (0, "", ""), fun _ _ _ => Except.ok (1, "", ""), ?_⟩
    simp [run_exec, ha, ExecResult.mk.injEq]

/-- Witness for C8: the dangerous-off gate on the `rm -rf /` block, the
denial of the disallowed `rm` argv, and runner-dependence for the allowed
`git status` argv. -/
theorem C8_exec_allowlist_gating_witness :
    (Hub.handle_control_block unusedRunner hubSafe execBlockRm =
      Hub.send_orch hubSafe
        "HUB: exec control block ignored because dangerous mode is off.") ∧
    (run_exec rmSpec DEFAULT_ALLOWED unusedRunner).ok = false ∧
    (run_exec rmSpec DEFAULT_ALLOWED unusedRunner).code = 126 ∧
    ∃ q1 q2 : ExecRunner,
      run_exec gitStatusSpec DEFAULT_ALLOWED q1 ≠ run_exec gitStatusSpec DEFAULT_ALLOWED q2 :=
  ⟨(C8_exec_allowlist_gating hubSafe execBlockRm rmSpec DEFAULT_ALLOWED
      unusedRunner unusedRunner unusedRunner).1 (by decide) (by decide) (by decide),
    (((C8_exec_allowlist_gating hubSafe execBlockRm rmSpec DEFAULT_ALLOWED
      unusedRunner unusedRunner unusedRunner).2.1 (by decide)).2).1,
    (((C8_exec_allowlist_gating hubSafe execBlockRm rmSpec DEFAULT_ALLOWED
      unusedRunner unusedRunner unusedRunner).2.1 (by decide)).2).2.1,
    (C8_exec_allowlist_gating hubSafe execBlockRm gitStatusSpec DEFAULT_ALLOWED
      unusedRunner unusedRunner unusedRunner).2.2 (by decide)⟩

/-! ## Claim C10: spawning an existing canonical name forwards the task -/

/-- C10: when a sub-agent already exists under the canonical name, spawning
with any name canonicalizing to it creates nothing: the whole effect is two
`sendUserMessage` calls — the task forwarded to the existing agent's
conversation and the "already exists" note to the orchestrator — and every
other field (agent map, conversation index, agent metadata, …) is unchanged,
as the record equality states. -/
theorem C10_spawn_existing_name_forwards (s : Hub) (name : Option String)
    (task : String) (cwd : Option String) (orch agent : Agent)
    (hname : ¬ (name = none ∨ name = some ""))
    (horch : s.orchestrator = some orch)
    (hsub : getA s.subs (normalise_agent_name name) = some agent) :
    Hub.spawn_sub s name task cwd =
      { s with calls := (s.calls ++ [RpcOut.sendUserMessage agent.conversation_id [task]]) ++
          [RpcOut.sendUserMessage orch.conversation_id
            ["HUB: sub-agent '" ++ normalise_agent_name name ++
              "' already exists; forwarded new task."]] } := by
  simp only [Hub.spawn_sub]
  rw [if_neg hname]
  simp only [hsub, Hub.send_orch, horch]

/-- Witness for C10: `hubOneSub` has a sub-agent `a` (conversation
`conv:1`); spawning `"A"` forwards the task and changes nothing else. -/
theorem C10_spawn_existing_name_forwards_witness :
    Hub.spawn_sub hubOneSub (some "A") "more work" none =
      { hubOneSub with calls := (hubOneSub.calls ++
          [RpcOut.sendUserMessage "conv:1" ["more work"]]) ++
          [RpcOut.sendUserMessage "conv:0"
            ["HUB: sub-agent 'a' already exists; forwarded new task."]] } :=
  C10_spawn_existing_name_forwards hubOneSub (some "A") "more work" none
    ⟨"orchestrator", "conv:0", "idle", 0, none, none⟩
    ⟨"a", "conv:1", "idle", 0, none, none⟩ (by decide) (by decide) (by decide)

/-! ## Claim C2: autopilot safety -/

theorem broadcast_orchestrator (s : Hub) (w t : String) (p : Json) :
    (Hub.broadcast s w t p).orchestrator = s.orchestrator := rfl

theorem broadcast_warned (s : Hub) (w t : String) (p : Json) :
    (Hub.broadcast s w t p).autopilot_warned = s.autopilot_warned := rfl

theorem broadcast_calls (s : Hub) (w t : String) (p : Json) :
    (Hub.broadcast s w t p).calls = s.calls := rfl

theorem handle_control_block_off (runner : ExecRunner) (s : Hub) (block : Json)
    (h : s.autopilot_enabled = false) :
    (Hub.handle_control_block runner s block).subs = s.subs ∧
    (Hub.handle_control_block runner s block).agent_state = s.agent_state ∧
    (Hub.handle_control_block runner s block).conv_to_name = s.conv_to_name ∧
    (Hub.handle_control_block runner s block).agent_meta = s.agent_meta ∧
    (Hub.handle_control_block runner s block).issue_to_agent = s.issue_to_agent ∧
    (Hub.handle_control_block runner s block).orchestrator = s.orchestrator ∧
    (Hub.handle_control_block runner s block).autopilot_enabled = false ∧
    (Hub.handle_control_block runner s block).events =
      s.events ++ [suppressedEvent s block] ∧
    ((Hub.handle_control_block runner s block).calls = s.calls ∨
      ∃ a txt, s.orchestrator = some a ∧
        (Hub.handle_control_block runner s block).calls =
          s.calls ++ [RpcOut.sendUserMessage a.conversation_id [txt]]) := by
  by_cases hw : s.autopilot_warned = true
  · have e : Hub.handle_control_block runner s block =
        Hub.broadcast s "orchestrator" "autopilot_suppressed"
          (Json.jobj [("summary", Json.jstr (block.firstKeyD "control")),
            ("control", block)]) := by
      simp [Hub.handle_control_block, h, hw, broadcast_warned]
    rw [e]
    exact ⟨rfl, rfl, rfl, rfl, rfl, rfl, h, rfl, Or.inl rfl⟩
  · cases horch : s.orchestrator with
    | none =>
      have e : Hub.handle_control_block runner s block =
          { Hub.broadcast s "orchestrator" "autopilot_suppressed"
              (Json.jobj [("summary", Json.jstr (block.firstKeyD "control")),
                ("control", block)]) with autopilot_warned := true } := by
        simp [Hub.handle_control_block, h, hw, Hub.send_orch, horch,
          broadcast_warned, broadcast_orchestrator]
      rw [e]
      exact ⟨rfl, rfl, rfl, rfl, rfl, horch, h, rfl, Or.inl rfl⟩
    | some a =>
      have e : Hub.handle_control_block runner s block =
          { Hub.broadcast s "orchestrator" "autopilot_suppressed"
              (Json.jobj [("summary", Json.jstr (block.firstKeyD "control")),
                ("control", block)]) with
            calls := s.calls ++ [RpcOut.sendUserMessage a.conversation_id
              ["HUB: autopilot is currently disabled; ignoring control blocks. Use :autopilot on to allow automated actions."]],
            autopilot_warned := true } := by
        simp [Hub.handle_control_block, h, hw, Hub.send_orch, horch,
          broadcast_warned, broadcast_orchestrator, broadcast_calls, Hub.broadcast]
      rw [e]
      exact ⟨rfl, rfl, rfl, rfl, rfl, horch, h, rfl, Or.inr ⟨a, _, rfl, rfl⟩⟩

theorem fold_control_blocks_off (runner : ExecRunner) (blocks : List Json) :
    ∀ s : Hub, s.autopilot_enabled = false →
      (blocks.foldl (Hub.handle_control_block runner) s).subs = s.subs ∧
      (blocks.foldl (Hub.handle_control_block runner) s).agent_state = s.agent_state ∧
      (blocks.foldl (Hub.handle_control_block runner) s).conv_to_name = s.conv_to_name ∧
      (blocks.foldl (Hub.handle_control_block runner) s).agent_meta = s.agent_meta ∧
      (blocks.foldl (Hub.handle_control_block runner) s).issue_to_agent = s.issue_to_agent ∧
      (blocks.foldl (Hub.handle_control_block runner) s).orchestrator = s.orchestrator ∧
      (blocks.foldl (Hub.handle_control_block runner) s).autopilot_enabled = false ∧
      (∃ extra, (blocks.foldl (Hub.handle_control_block runner) s).calls =
          s.calls ++ extra ∧
        ∀ c ∈ extra, ∃ a txt, s.orchestrator = some a ∧
          c = RpcOut.sendUserMessage a.conversation_id [txt]) ∧
      (∃ evs, (blocks.foldl (Hub.handle_control_block runner) s).events =
          s.events ++ evs ∧
        evs.map Event.type = blocks.map (fun _ => "autopilot_suppressed")) := by
  induction blocks with
  | nil =>
    intro s h
    exact ⟨rfl, rfl, rfl, rfl, rfl, rfl, h,
      ⟨[], by simp, by simp⟩, ⟨[], by simp, rfl⟩⟩
  | cons b rest ih =>
    intro s h
    obtain ⟨h1, h2, h3, h4, h5, h6, h7, h8, h9⟩ := handle_control_block_off runner s b h
    obtain ⟨g1, g2, g3, g4, g5, g6, g7, ⟨extra, gec, gemem⟩, ⟨evs, gee, gemap⟩⟩ :=
      ih (Hub.handle_control_block runner s b) h7
    rw [show (b :: rest).foldl (Hub.handle_control_block runner) s =
      rest.foldl (Hub.handle_control_block runner)
        (Hub.handle_control_block runner s b) from rfl]
    refine ⟨g1.trans h1, g2.trans h2, g3.trans h3, g4.trans h4, g5.trans h5,
      g6.trans h6, g7, ?_, ?_⟩
    · rcases h9 with hc | ⟨a, txt, ha, hc⟩
      · refine ⟨extra, by rw [gec, hc], ?_⟩
        intro c hcm
        obtain ⟨a2, t2, ha2, hs2⟩ := gemem c hcm
        exact ⟨a2, t2, h6.symm.trans ha2, hs2⟩
      · refine ⟨[RpcOut.sendUserMessage a.conversation_id [txt]] ++ extra, ?_, ?_⟩
        · rw [gec, hc, List.append_assoc]
        · intro c hcm
          rcases List.mem_append.mp hcm with hm | hm
          · rw [List.mem_singleton.mp hm]
            exact ⟨a, txt, ha, rfl⟩
          · obtain ⟨a2, t2, ha2, hs2⟩ := gemem c hm
            exact ⟨a2, t2, h6.symm.trans ha2, hs2⟩
    · refine ⟨[suppressedEvent s b] ++ evs, ?_, ?_⟩
      · rw [gee, h8, List.append_assoc]
      · simp only [List.map_append, List.map_cons, List.map_nil, List.map_map,
          gemap, List.singleton_append, List.map_cons]
        rfl

/-- C2: with autopilot disabled, orchestrator text never triggers
`spawn_sub` / `send_to_sub` / `close_sub`: the agent map, agent states,
conversation index, agent metadata and issue assignments are all unchanged,
every outbound call added is a plain message to the orchestrator's own
conversation (in particular no `newConversation` and no message to any
sub-agent), the new events are exactly the optional `orch_to_user` display
event followed by one `autopilot_suppressed` event per extracted block, and
every approval request is answered `denied`. -/
theorem C2_autopilot_off_is_safe (runner : ExecRunner) (s : Hub) (text : String)
    (h : s.autopilot_enabled = false) :
    ((Hub.handle_orchestrator_text runner s text).subs = s.subs ∧
     (Hub.handle_orchestrator_text runner s text).agent_state = s.agent_state ∧
     (Hub.handle_orchestrator_text runner s text).conv_to_name = s.conv_to_name ∧
     (Hub.handle_orchestrator_text runner s text).agent_meta = s.agent_meta ∧
     (Hub.handle_orchestrator_text runner s text).issue_to_agent = s.issue_to_agent) ∧
    (∃ extra, (Hub.handle_orchestrator_text runner s text).calls = s.calls ++ extra ∧
      ∀ c ∈ extra, ∃ a txt2, s.orchestrator = some a ∧
        c = RpcOut.sendUserMessage a.conversation_id [txt2]) ∧
    (∃ evs, (Hub.handle_orchestrator_text runner s text).events = s.events ++ evs ∧
      evs.map Event.type =
        (if (strip_control_blocks text).isEmpty then ([] : List String)
          else ["orch_to_user"]) ++
        (extract_control_blocks (some text)).map (fun _ => "autopilot_suppressed")) ∧
    (∀ rid method params, ∃ rest,
      (Hub.autoapprove s rid method params).calls =
        (s.calls ++ [RpcOut.respond rid "denied"]) ++ rest) := by
  have key : Hub.handle_orchestrator_text runner s text =
      (extract_control_blocks (some text)).foldl (Hub.handle_control_block runner)
        (if ¬ (strip_control_blocks text).isEmpty then
          s.broadcast "orchestrator" "orch_to_user"
            (Json.jobj [("text", Json.jstr (strip_control_blocks text))])
         else s) := rfl
  by_cases hd : (strip_control_blocks text).isEmpty = true
  · have key2 : Hub.handle_orchestrator_text runner s text =
        (extract_control_blocks (some text)).foldl (Hub.handle_control_block runner) s := by
      rw [key, if_neg (by simp [hd])]
    obtain ⟨g1, g2, g3, g4, g5, g6, g7, ⟨extra, gec, gemem⟩, ⟨evs, gee, gemap⟩⟩ :=
      fold_control_blocks_off runner (extract_control_blocks (some text)) s h
    rw [key2]
    refine ⟨⟨g1, g2, g3, g4, g5⟩, ⟨extra, gec, gemem⟩,
      ⟨evs, gee, by rw [gemap, if_pos hd, List.nil_append]⟩, ?_⟩
    intro rid method params
    have happ : ¬ (s.dangerous = true ∧ (false : Bool) = true) := by simp
    simp only [Hub.autoapprove, Hub.broadcast, Hub.send_orch, h]
    rw [if_neg happ, if_neg happ, if_pos happ]
    cases s.orchestrator with
    | none => exact ⟨[], by simp⟩
    | some a => exact ⟨[RpcOut.sendUserMessage a.conversation_id _], rfl⟩
  · have key2 : Hub.handle_orchestrator_text runner s text =
        (extract_control_blocks (some text)).foldl (Hub.handle_control_block runner)
          (s.broadcast "orchestrator" "orch_to_user"
            (Json.jobj [("text", Json.jstr (strip_control_blocks text))])) := by
      rw [key, if_pos (by simp [hd])]
    obtain ⟨g1, g2, g3, g4, g5, g6, g7, ⟨extra, gec, gemem⟩, ⟨evs, gee, gemap⟩⟩ :=
      fold_control_blocks_off runner (extract_control_blocks (some text))
        (s.broadcast "orchestrator" "orch_to_user"
          (Json.jobj [("text", Json.jstr (strip_control_blocks text))])) h
    rw [key2]
    refine ⟨⟨g1, g2, g3, g4, g5⟩, ⟨extra, gec, ?_⟩,
      ⟨⟨s.sequence + 1, "orchestrator", "orch_to_user",
          Json.jobj [("text", Json.jstr (strip_control_blocks text))]⟩ :: evs, ?_, ?_⟩, ?_⟩
    · intro c hcm
      obtain ⟨a2, t2, ha2, hs2⟩ := gemem c hcm
      exact ⟨a2, t2, ha2, hs2⟩
    · rw [gee]
      simp [Hub.broadcast]
    · rw [List.map_cons, gemap,
        if_neg (show ¬ (strip_control_blocks text).isEmpty = true from hd)]
      rfl
    · intro rid method params
      have happ : ¬ (s.dangerous = true ∧ (false : Bool) = true) := by simp
      simp only [Hub.autoapprove, Hub.broadcast, Hub.send_orch, h]
      rw [if_neg happ, if_neg happ, if_pos happ]
      cases s.orchestrator with
      | none => exact ⟨[], by simp⟩
      | some a => exact ⟨[RpcOut.sendUserMessage a.conversation_id _], rfl⟩

/-- Witness for C2: a started hub with autopilot off, fed the S1 text and an
approval request. -/
theorem C2_autopilot_off_is_safe_witness :
    (Hub.handle_orchestrator_text unusedRunner hubAutopilotOff S1_input).subs =
      hubAutopilotOff.subs ∧
    ∃ rest, (Hub.autoapprove hubAutopilotOff 9 "execCommandApproval" rmParams).calls =
      (hubAutopilotOff.calls ++ [RpcOut.respond 9 "denied"]) ++ rest :=
  ⟨(C2_autopilot_off_is_safe unusedRunner hubAutopilotOff S1_input (by decide)).1.1,
    (C2_autopilot_off_is_safe unusedRunner hubAutopilotOff S1_input (by decide)).2.2.2
      9 "execCommandApproval" rmParams⟩
